import Mathlib

/-!
# Athena query engine: submit, poll, fetch

A shallow embedding of the Go package `athena` (`athena.go`, `model.go`,
`aws_session.go`).

* Pointers are `Option` (`none` is the nil pointer), slices are `Slice`
  (`none` is the nil slice), Go's `(value, error)` results are pairs whose
  second component is `Option GoError`.
* The Athena client behind `athenaiface.AthenaAPI` is an arbitrary deterministic
  collaborator: each of its three operations is a function of the history of
  events so far and of the call's input.
* Every method threads the history: it receives the events so far and returns
  them extended by the client calls and sleeps it made, in order.
* A nil dereference is the result `Res.panicked`.  The poll loop is given fuel;
  `Res.running` is the loop still going when the fuel is used up.
* Go's `int` is taken to be 64 bits wide and wraps on overflow (`wrapInt`).
* Diagnostic output (`fmt.Printf`) and the string built by `PrintQueryStatus`,
  which `CheckStatusByQueryID` discards, are not part of the model.
* A `map[string]string` is the list of its entries.  Go's `strconv.Atoi` is
  modelled from its documentation, as `ParseInt(s, 10, 0)`.
-/

namespace Athena

/-! ## Data model -/

/-- Go `error` value, identified by its message. -/
structure GoError where
  msg : String
deriving DecidableEq, Repr

/-- Go slice: `none` is the nil slice. -/
abbrev Slice (α : Type) := Option (List α)

/-- SDK helper `aws.StringValue`: the pointee, or the empty string for nil. -/
def StringValue (p : Option String) : String :=
  match p with
  | some s => s
  | none => ""

/-- SDK type `athena.ColumnInfo` (the fields the package's tests set). -/
structure ColumnInfo where
  Name : Option String
  SchemaName : Option String
  TableName : Option String
  Type_ : Option String
deriving DecidableEq, Repr

/-- SDK type `athena.Datum`. -/
structure Datum where
  VarCharValue : Option String
deriving DecidableEq, Repr

/-- SDK type `athena.Row`. -/
structure Row where
  Data : Slice (Option Datum)
deriving DecidableEq, Repr

/-- SDK type `athena.QueryExecutionContext`. -/
structure QueryExecutionContext where
  Database : Option String
deriving DecidableEq, Repr

/-- SDK type `athena.ResultConfiguration`. -/
structure ResultConfiguration where
  OutputLocation : Option String
deriving DecidableEq, Repr

/-- SDK type `athena.StartQueryExecutionInput`. -/
structure StartQueryExecutionInput where
  QueryString : Option String
  QueryExecutionContext : Option QueryExecutionContext
  ResultConfiguration : Option ResultConfiguration
deriving DecidableEq, Repr

/-- SDK type `athena.StartQueryExecutionOutput`. -/
structure StartQueryExecutionOutput where
  QueryExecutionId : Option String
deriving DecidableEq, Repr

/-- SDK type `athena.GetQueryExecutionInput`. -/
structure GetQueryExecutionInput where
  QueryExecutionId : Option String
deriving DecidableEq, Repr

/-- SDK type `athena.QueryExecutionStatus` (timestamps are read only by
`PrintQueryStatus`). -/
structure QueryExecutionStatus where
  State : Option String
deriving DecidableEq, Repr

/-- SDK type `athena.QueryExecution`. -/
structure QueryExecution where
  QueryExecutionId : Option String
  Status : Option QueryExecutionStatus
deriving DecidableEq, Repr

/-- SDK type `athena.GetQueryExecutionOutput`. -/
structure GetQueryExecutionOutput where
  QueryExecution : Option QueryExecution
deriving DecidableEq, Repr

/-- SDK type `athena.GetQueryResultsInput`. -/
structure GetQueryResultsInput where
  QueryExecutionId : Option String
deriving DecidableEq, Repr

/-- SDK type `athena.ResultSetMetadata`. -/
structure ResultSetMetadata where
  ColumnInfo : Slice (Option ColumnInfo)
deriving DecidableEq, Repr

/-- SDK type `athena.ResultSet`. -/
structure ResultSet where
  ResultSetMetadata : Option ResultSetMetadata
  Rows : Slice (Option Row)
deriving DecidableEq, Repr

/-- SDK type `athena.GetQueryResultsOutput`. -/
structure GetQueryResultsOutput where
  ResultSet : Option ResultSet
deriving DecidableEq, Repr

/-- SDK constant `athena.QueryExecutionStateQueued`. -/
def QueryExecutionStateQueued : String := "QUEUED"
/-- SDK constant `athena.QueryExecutionStateRunning`. -/
def QueryExecutionStateRunning : String := "RUNNING"
/-- SDK constant `athena.QueryExecutionStateSucceeded`. -/
def QueryExecutionStateSucceeded : String := "SUCCEEDED"
/-- SDK constant `athena.QueryExecutionStateFailed`. -/
def QueryExecutionStateFailed : String := "FAILED"
/-- SDK constant `athena.QueryExecutionStateCancelled`. -/
def QueryExecutionStateCancelled : String := "CANCELLED"

def QueryOptStart : String := "startQuery"
def QueryOptStatus : String := "queryStatus"
def QueryOptResult : String := "queryResult"

/-- Type `Config` of `model.go`. -/
structure Config where
  Region : String
  OutputLocation : String
  PollFrequency : String
  AccessID : String
  SecretKey : String
  SessionToken : String
  Role : String
  MaxInterval : Int
  MaxTimeout : Int
deriving DecidableEq, Repr

/-- Type `RequestParam` of `model.go`. -/
structure RequestParam where
  SQL : String
  QueryID : String
  DataSource : String
  DataBase : String
  NetworkID : Int
  QueryOpt : String
deriving DecidableEq, Repr

/-- Type `ResponseData` of `model.go`. -/
structure ResponseData where
  Columns : Slice (Option ColumnInfo)
  Rows : Slice (Option Row)
  QueryID : String
  QueryStatus : String
deriving DecidableEq, Repr

/-! ## Events, the client and results of a run -/

/-- One observable step of a run: a client call with its input and what the
client answered, or a `time.Sleep` with its length in seconds. -/
inductive Event where
  | startQuery (input : StartQueryExecutionInput)
      (out : Option StartQueryExecutionOutput) (err : Option GoError)
  | getExecution (input : GetQueryExecutionInput)
      (out : Option GetQueryExecutionOutput) (err : Option GoError)
  | getResults (input : GetQueryResultsInput)
      (out : Option GetQueryResultsOutput) (err : Option GoError)
  | sleep (seconds : Nat)
deriving DecidableEq, Repr

/-- The three operations of `athenaiface.AthenaAPI` the package calls.  Each
answer may depend on everything that happened before the call. -/
structure AthenaAPI where
  StartQueryExecution : List Event → StartQueryExecutionInput →
    Option StartQueryExecutionOutput × Option GoError
  GetQueryExecution : List Event → GetQueryExecutionInput →
    Option GetQueryExecutionOutput × Option GoError
  GetQueryResults : List Event → GetQueryResultsInput →
    Option GetQueryResultsOutput × Option GoError

/-- How a call ended: it returned a value, it panicked on a nil dereference, or
it is still running when the fuel is used up. -/
inductive Res (α : Type) where
  | returned (v : α)
  | panicked
  | running
deriving DecidableEq, Repr

/-- The events after a call, and how the call ended. -/
structure Run (α : Type) where
  trace : List Event
  res : Res α
deriving DecidableEq, Repr

/-- Type `AthenaEngine` of `athena.go`; field `athena` is the client interface
value, `none` when it is nil. -/
structure AthenaEngine where
  athena : Option AthenaAPI
  db : String
  OutputLocation : String
  MaxInterval : Int
  MaxTimeout : Int
  pollFrequency : Int

/-- Go `int` arithmetic: the result of an addition, wrapped to 64 bits. -/
def wrapInt (x : Int) : Int := (x + 2 ^ 63) % 2 ^ 64 - 2 ^ 63

/-! ## Operations of `athena.go` -/

/-- The local `queryInput` of `ExecuteQuery`. -/
def queryInput (c : AthenaEngine) (q : RequestParam) : StartQueryExecutionInput :=
  { QueryString := some q.SQL
    QueryExecutionContext := some { Database := some q.DataBase }
    ResultConfiguration := some { OutputLocation := some c.OutputLocation } }

/-- Method `ExecuteQuery`: one `StartQueryExecution` call carrying the SQL, the
database and the engine's output location. -/
def ExecuteQuery (c : AthenaEngine) (qi : Option RequestParam) (h : List Event) :
    Run (String × Option GoError) :=
  match qi with
  | none => ⟨h, .panicked⟩
  | some q =>
    let queryInput := queryInput c q
    match c.athena with
    | none => ⟨h, .panicked⟩
    | some api =>
      match api.StartQueryExecution h queryInput with
      | (output, some err) =>
        ⟨h ++ [.startQuery queryInput output (some err)], .returned ("", some err)⟩
      | (none, none) => ⟨h ++ [.startQuery queryInput none none], .panicked⟩
      | (some output, none) =>
        ⟨h ++ [.startQuery queryInput (some output) none],
          .returned (StringValue output.QueryExecutionId, none)⟩

/-- Method `CheckStatusByQueryID`: one `GetQueryExecution` call for the id. -/
def CheckStatusByQueryID (c : AthenaEngine) (queryID : String) (h : List Event) :
    Run (String × Option GoError) :=
  let input : GetQueryExecutionInput := { QueryExecutionId := some queryID }
  match c.athena with
  | none => ⟨h, .panicked⟩
  | some api =>
    match api.GetQueryExecution h input with
    | (output, some err) =>
      ⟨h ++ [.getExecution input output (some err)], .returned ("", some err)⟩
    | (none, none) => ⟨h ++ [.getExecution input none none], .panicked⟩
    | (some output, none) =>
      let h1 := h ++ [.getExecution input (some output) none]
      match output.QueryExecution with
      | none => ⟨h1, .panicked⟩
      | some qe =>
        match qe.Status with
        | none => ⟨h1, .panicked⟩
        | some st => ⟨h1, .returned (StringValue st.State, none)⟩

/-- Method `GetQueryResultByQueryID`: one `GetQueryResults` call for the id. -/
def GetQueryResultByQueryID (c : AthenaEngine) (queryID : String) (h : List Event) :
    Run (Slice (Option ColumnInfo) × Slice (Option Row) × Option GoError) :=
  let input : GetQueryResultsInput := { QueryExecutionId := some queryID }
  match c.athena with
  | none => ⟨h, .panicked⟩
  | some api =>
    match api.GetQueryResults h input with
    | (out, some err) =>
      ⟨h ++ [.getResults input out (some err)], .returned (none, none, some err)⟩
    | (none, none) => ⟨h ++ [.getResults input none none], .panicked⟩
    | (some out, none) =>
      let h1 := h ++ [.getResults input (some out) none]
      match out.ResultSet with
      | none => ⟨h1, .panicked⟩
      | some rs =>
        match rs.ResultSetMetadata with
        | none => ⟨h1, .panicked⟩
        | some md => ⟨h1, .returned (md.ColumnInfo, rs.Rows, none)⟩

/-- Method `getResultByQueryID`: the private twin of `GetQueryResultByQueryID`. -/
def getResultByQueryID (c : AthenaEngine) (queryID : String) (h : List Event) :
    Run (Slice (Option ColumnInfo) × Slice (Option Row) × Option GoError) :=
  let input : GetQueryResultsInput := { QueryExecutionId := some queryID }
  match c.athena with
  | none => ⟨h, .panicked⟩
  | some api =>
    match api.GetQueryResults h input with
    | (out, some err) =>
      ⟨h ++ [.getResults input out (some err)], .returned (none, none, some err)⟩
    | (none, none) => ⟨h ++ [.getResults input none none], .panicked⟩
    | (some out, none) =>
      let h1 := h ++ [.getResults input (some out) none]
      match out.ResultSet with
      | none => ⟨h1, .panicked⟩
      | some rs =>
        match rs.ResultSetMetadata with
        | none => ⟨h1, .panicked⟩
        | some md => ⟨h1, .returned (md.ColumnInfo, rs.Rows, none)⟩

/-- The `for isRunning` loop of `waitQueryToFinish`, entered with the local
`runtime` and the history so far.  The first component of the result is the
value of `runtime` when the loop was left (or the fuel ran out). -/
def waitLoop (c : AthenaEngine) (queryID : String) :
    Nat → Int → List Event → Int × Run (Option GoError)
  | 0, runtime, h => (runtime, ⟨h, .running⟩)
  | fuel + 1, runtime, h =>
    match CheckStatusByQueryID c queryID h with
    | ⟨h1, .panicked⟩ => (runtime, ⟨h1, .panicked⟩)
    | ⟨h1, .running⟩ => (runtime, ⟨h1, .running⟩)
    | ⟨h1, .returned (_, some e)⟩ => (runtime, ⟨h1, .returned (some e)⟩)
    | ⟨h1, .returned (s, none)⟩ =>
      if s = QueryExecutionStateFailed then
        (runtime, ⟨h1, .returned (some ⟨"The Athena Query " ++ queryID ++ " is failed"⟩)⟩)
      else if s = QueryExecutionStateCancelled then
        (runtime, ⟨h1, .returned (some ⟨"The Athena Query " ++ queryID ++ " is cancelled"⟩)⟩)
      else if s = QueryExecutionStateSucceeded then
        (runtime, ⟨h1, .returned none⟩)
      else if s = QueryExecutionStateRunning then
        let runtime1 := wrapInt (runtime + c.MaxInterval)
        if runtime1 > c.MaxTimeout then
          (runtime1, ⟨h1, .returned (some ⟨"The Athena Query " ++ queryID ++ " is timeout"⟩)⟩)
        else
          waitLoop c queryID fuel runtime1 (h1 ++ [.sleep 3])
      else
        waitLoop c queryID fuel runtime h1

/-- Method `waitQueryToFinish`. -/
def waitQueryToFinish (fuel : Nat) (c : AthenaEngine) (queryID : String) (h : List Event) :
    Run (Option GoError) :=
  match c.athena with
  | none => ⟨h, .returned (some ⟨"The query.AthenaQuery is nil"⟩)⟩
  | some _ => (waitLoop c queryID fuel 0 h).2

/-- Method `QueryResult`: submit, wait, fetch. -/
def QueryResult (fuel : Nat) (c : AthenaEngine) (qi : Option RequestParam) (h : List Event) :
    Run (Option ResponseData × Option GoError) :=
  match ExecuteQuery c qi h with
  | ⟨h1, .panicked⟩ => ⟨h1, .panicked⟩
  | ⟨h1, .running⟩ => ⟨h1, .running⟩
  | ⟨h1, .returned (_, some err)⟩ => ⟨h1, .returned (none, some err)⟩
  | ⟨h1, .returned (queryID, none)⟩ =>
    match waitQueryToFinish fuel c queryID h1 with
    | ⟨h2, .panicked⟩ => ⟨h2, .panicked⟩
    | ⟨h2, .running⟩ => ⟨h2, .running⟩
    | ⟨h2, .returned (some err)⟩ => ⟨h2, .returned (none, some err)⟩
    | ⟨h2, .returned none⟩ =>
      match getResultByQueryID c queryID h2 with
      | ⟨h3, .panicked⟩ => ⟨h3, .panicked⟩
      | ⟨h3, .running⟩ => ⟨h3, .running⟩
      | ⟨h3, .returned (_, _, some err)⟩ => ⟨h3, .returned (none, some err)⟩
      | ⟨h3, .returned (cols, rows, none)⟩ =>
        ⟨h3, .returned (some { QueryID := queryID, Columns := cols, Rows := rows,
                               QueryStatus := QueryExecutionStateSucceeded }, none)⟩

/-- Method `Exec`: dispatch on the request's `QueryOpt`. -/
def Exec (fuel : Nat) (c : AthenaEngine) (param : Option RequestParam) (h : List Event) :
    Run (Option ResponseData × Option GoError) :=
  match param with
  | none => ⟨h, .returned (none, none)⟩
  | some p =>
    if p.QueryOpt = QueryOptStart then
      match ExecuteQuery c (some p) h with
      | ⟨h1, .panicked⟩ => ⟨h1, .panicked⟩
      | ⟨h1, .running⟩ => ⟨h1, .running⟩
      | ⟨h1, .returned (_, some err)⟩ => ⟨h1, .returned (none, some err)⟩
      | ⟨h1, .returned (queryID, none)⟩ =>
        ⟨h1, .returned (some { QueryID := queryID, Columns := none, Rows := none,
                               QueryStatus := "" }, none)⟩
    else if p.QueryOpt = QueryOptStatus then
      match CheckStatusByQueryID c p.QueryID h with
      | ⟨h1, .panicked⟩ => ⟨h1, .panicked⟩
      | ⟨h1, .running⟩ => ⟨h1, .running⟩
      | ⟨h1, .returned (_, some err)⟩ => ⟨h1, .returned (none, some err)⟩
      | ⟨h1, .returned (status, none)⟩ =>
        ⟨h1, .returned (some { QueryID := p.QueryID, QueryStatus := status,
                               Columns := none, Rows := none }, none)⟩
    else if p.QueryOpt = QueryOptResult then
      QueryResult fuel c (some p) h
    else
      ⟨h, .returned (none, none)⟩

/-! ## Construction: `aws_session.go`, `setupAthenaSession`, `GetInstance` -/

/-- SDK type `session.Session`; its content is not inspected. -/
structure Session where
  handle : Nat
deriving DecidableEq, Repr

/-- SDK type `credentials.Credentials`; its content is not inspected. -/
structure Credentials where
  handle : Nat
deriving DecidableEq, Repr

/-- SDK type `aws.Config`, with the two fields the package sets. -/
structure AwsConfig where
  Region : Option String
  Credentials : Option Credentials
deriving DecidableEq, Repr

/-- Type `AwsSession` of `aws_session.go`: it embeds a `*session.Session`. -/
structure AwsSession where
  Session : Option Session
deriving DecidableEq, Repr

/-- The functions of the AWS SDK that construction calls, taken as parameters:
`session.NewSession`, `stscreds.NewCredentials` and `athena.New` (the last two
on a session that is present). -/
structure Sdk where
  NewSession : List AwsConfig → Option Session × Option GoError
  NewCredentials : Session → String → Credentials
  New : Session → List AwsConfig → AthenaAPI

/-- Function `NewSession`: `session.Must` panics on an error. -/
def NewSession (sdk : Sdk) : Res AwsSession :=
  match sdk.NewSession [] with
  | (_, some _) => .panicked
  | (sess, none) => .returned { Session := sess }

/-- Function `NewSessionWithRole`; `stscreds.NewCredentials` dereferences the
session. -/
def NewSessionWithRole (sdk : Sdk) (role : String) : Res (AwsSession × AwsConfig) :=
  match NewSession sdk with
  | .panicked => .panicked
  | .running => .running
  | .returned sess =>
    match sess.Session with
    | none => .panicked
    | some s =>
      .returned (sess, { Region := none, Credentials := some (sdk.NewCredentials s role) })

/-- Function `NewSessionWithRegion`. -/
def NewSessionWithRegion (sdk : Sdk) (region : String) : Option AwsSession × Option GoError :=
  let config : AwsConfig := { Region := some region, Credentials := none }
  match sdk.NewSession [config] with
  | (_, some err) => (none, some err)
  | (sess, none) => (some { Session := sess }, none)

/-- SDK function `athena.New` on a `*AwsSession`: it dereferences the session and
returns a client, never nil. -/
def athenaNew (sdk : Sdk) (p : Option AwsSession) (cfgs : List AwsConfig) : Res AthenaAPI :=
  match p with
  | none => .panicked
  | some s =>
    match s.Session with
    | none => .panicked
    | some sess => .returned (sdk.New sess cfgs)

/-- Method `getAthenaWithRole`. -/
def getAthenaWithRole (sdk : Sdk) (role : String) : Res AthenaAPI :=
  match NewSessionWithRole sdk role with
  | .panicked => .panicked
  | .running => .running
  | .returned (session, cfg) => athenaNew sdk (some session) [cfg]

/-- Method `getAthenaWithRegion`: the error of `NewSessionWithRegion` is dropped. -/
def getAthenaWithRegion (sdk : Sdk) (region : String) : Res AthenaAPI :=
  athenaNew sdk (NewSessionWithRegion sdk region).1 []

/-- Method `setupAthenaSession`: the engine after the call, and the error. -/
def setupAthenaSession (sdk : Sdk) (c : AthenaEngine) (config : Option Config) :
    Res (AthenaEngine × Option GoError) :=
  match config with
  | none => .returned (c, some ⟨"The config is missing"⟩)
  | some cfg =>
    if cfg.Role ≠ "" then
      match getAthenaWithRole sdk cfg.Role with
      | .panicked => .panicked
      | .running => .running
      | .returned a => .returned ({ c with athena := some a }, none)
    else if cfg.Region ≠ "" then
      match getAthenaWithRegion sdk cfg.Region with
      | .panicked => .panicked
      | .running => .running
      | .returned a => .returned ({ c with athena := some a }, none)
    else
      .returned (c, some ⟨"The Athena Config is insufficient"⟩)

/-- Function `GetInstance`. -/
def GetInstance (sdk : Sdk) (config : Option Config) :
    Res (Option AthenaEngine × Option GoError) :=
  match config with
  | none => .returned (none, some ⟨"The config is nil"⟩)
  | some cfg =>
    let c : AthenaEngine :=
      { athena := none, db := "", OutputLocation := cfg.OutputLocation,
        MaxInterval := cfg.MaxInterval, MaxTimeout := cfg.MaxTimeout, pollFrequency := 0 }
    match setupAthenaSession sdk c config with
    | .panicked => .panicked
    | .running => .running
    | .returned (_, some err) => .returned (none, some err)
    | .returned (c1, none) => .returned (some c1, none)

/-- An SDK whose session creation never fails: it always gives a session and
no error. -/
def SessionsSucceed (sdk : Sdk) : Prop :=
  ∀ cfgs, ∃ s, sdk.NewSession cfgs = (some s, none)

/-- A status response with execution and status present: id `qid`, state `sp`. -/
def statusOutput (qid sp : Option String) : GetQueryExecutionOutput :=
  { QueryExecution := some { QueryExecutionId := qid, Status := some { State := sp } } }

/-- A fetch response with result set and metadata present. -/
def resultsOutput (cs : Slice (Option ColumnInfo)) (rs : Slice (Option Row)) :
    GetQueryResultsOutput :=
  { ResultSet := some { ResultSetMetadata := some { ColumnInfo := cs }, Rows := rs } }

/-- Event: the submit call `ExecuteQuery` makes for request `p`, answered with `o`. -/
def submitted (c : AthenaEngine) (p : RequestParam) (o : StartQueryExecutionOutput) : Event :=
  .startQuery (queryInput c p) (some o) none

/-- Event: a status call for id `i`, answered with state `sp`. -/
def polled (i : String) (qid sp : Option String) : Event :=
  .getExecution { QueryExecutionId := some i } (some (statusOutput qid sp)) none

/-- Event: a fetch call for id `i`, answered with columns `cs` and rows `rs`. -/
def fetched (i : String) (cs : Slice (Option ColumnInfo)) (rs : Slice (Option Row)) : Event :=
  .getResults { QueryExecutionId := some i } (some (resultsOutput cs rs)) none

/-- Columns of the test fixture. -/
def testColumns : Slice (Option ColumnInfo) :=
  some [some { Name := some "max_job_id", SchemaName := some "job_id",
               TableName := some "viewership", Type_ := some "string" }]

/-- Rows of the test fixture. -/
def testRows : Slice (Option Row) :=
  some [some { Data := some [some { VarCharValue := some "20200825" }] }]

/-- The error a client call was answered with; `none` for a call that succeeded
and for a sleep. -/
def Event.err : Event → Option GoError
  | .startQuery _ _ e => e
  | .getExecution _ _ e => e
  | .getResults _ _ e => e
  | .sleep _ => none

/-- No client call among the events failed. -/
def Clean (t : List Event) : Prop := ∀ ev ∈ t, ev.err = none

/-- The trace `tr` extends `h` by events of which at most the last is a failed
client call, and if it is, its error satisfies `P`. -/
def ErrLast (h tr : List Event) (P : GoError → Prop) : Prop :=
  ∃ t, tr = h ++ t ∧
    (Clean t ∨ ∃ t1 ev e, t = t1 ++ [ev] ∧ Clean t1 ∧ ev.err = some e ∧ P e)

/-- Number of status calls (`GetQueryExecution`) among the events. -/
def statusCalls (t : List Event) : Nat :=
  t.countP fun e => match e with
    | .getExecution _ _ _ => true
    | _ => false

/-- Number of submit calls (`StartQueryExecution`) among the events. -/
def submitCalls (t : List Event) : Nat :=
  t.countP fun e => match e with
    | .startQuery _ _ _ => true
    | _ => false

/-- Number of fetch calls (`GetQueryResults`) among the events. -/
def fetchCalls (t : List Event) : Nat :=
  t.countP fun e => match e with
    | .getResults _ _ _ => true
    | _ => false

/-- Number of sleeps among the events. -/
def sleeps (t : List Event) : Nat :=
  t.countP fun e => match e with
    | .sleep _ => true
    | _ => false

/-! ## Clients of `athena_test.go` -/

/-- Test double `MockAthenaClient`: every call succeeds. -/
def MockAthenaClient : AthenaAPI where
  StartQueryExecution := fun _ _ => (some { QueryExecutionId := some "12345-12345" }, none)
  GetQueryExecution := fun _ _ =>
    (some (statusOutput none (some QueryExecutionStateSucceeded)), none)
  GetQueryResults := fun _ _ => (some (resultsOutput testColumns testRows), none)

/-- Test double `MockAthenaClientFail`: every call fails. -/
def MockAthenaClientFail : AthenaAPI where
  StartQueryExecution := fun _ _ => (none, some ⟨"StartQueryExecution mock error"⟩)
  GetQueryExecution := fun _ _ => (none, some ⟨"GetQueryExecution mock error"⟩)
  GetQueryResults := fun _ _ => (none, some ⟨"GetQueryResults mock error"⟩)

/-- Test double `MockAthenaClientWait`: the status call always reports `status`.
The test type defines no other method, and calling one panics on the nil
embedded interface; here the other two answer `(nil, nil)`, on which
`ExecuteQuery` and the fetch methods panic as well. -/
def MockAthenaClientWait (status : String) : AthenaAPI where
  StartQueryExecution := fun _ _ => (none, none)
  GetQueryExecution := fun _ _ => (some (statusOutput none (some status)), none)
  GetQueryResults := fun _ _ => (none, none)

/-- The engine the tests build around a client: all other fields zero. -/
def testEngine (api : AthenaAPI) (maxInterval maxTimeout : Int) : AthenaEngine :=
  { athena := some api, db := "", OutputLocation := "", MaxInterval := maxInterval,
    MaxTimeout := maxTimeout, pollFrequency := 0 }

/-- An SDK for the tests: sessions are always created, and the client made from
them is `MockAthenaClient`. -/
def testSdk : Sdk where
  NewSession := fun _ => (some ⟨0⟩, none)
  NewCredentials := fun _ _ => ⟨0⟩
  New := fun _ _ => MockAthenaClient

/-- Config of `TestGetInstance` case `t-1`. -/
def testConfig : Config :=
  { Region := "us-east-1", OutputLocation := "s3:xxx", PollFrequency := "", AccessID := "",
    SecretKey := "", SessionToken := "", Role := "", MaxInterval := 3, MaxTimeout := 15 }

/-- Request of test case `testStartQuery`. -/
def testStartQueryParam : RequestParam :=
  { SQL := "SELECT * FROM viewership", QueryID := "", DataSource := "", DataBase := "viewership",
    NetworkID := 0, QueryOpt := "startQuery" }

/-- Request of test case `testCheckStatusByQueryID`. -/
def testCheckStatusParam : RequestParam :=
  { SQL := "", QueryID := "12345-12345", DataSource := "", DataBase := "viewership",
    NetworkID := 0, QueryOpt := "queryStatus" }

/-- Request of test case `testQueryResult`. -/
def testQueryResultParam : RequestParam :=
  { SQL := "", QueryID := "SELECT * FROM viewership", DataSource := "", DataBase := "index",
    NetworkID := 0, QueryOpt := "queryResult" }

/-! ## `model.go`: `BuildAthenaConfig` -/

/-- A Go `map[string]string`, as the list of its entries.  The nil map and the
empty map are both `[]`: `len` and indexing do not tell them apart. -/
abbrev StringMap := List (String × String)

/-- Go map indexing `conf[key]`: the value at the key, or the empty string when
the key is absent. -/
def StringMap.index (conf : StringMap) (key : String) : String :=
  match conf.lookup key with
  | some v => v
  | none => ""

/-- The two errors of Go's `strconv`. -/
inductive NumError where
  | ErrSyntax
  | ErrRange
deriving DecidableEq, Repr

/-- Largest `uint64`. -/
def maxUint64 : Nat := 2 ^ 64 - 1

/-- Go's test `'0' <= c && c <= '9'` (bytes 48 to 57). -/
def isDecimalDigit (ch : Char) : Bool := decide (48 ≤ ch.toNat ∧ ch.toNat ≤ 57)

/-- The digit loop of Go's `strconv.ParseUint(s, 10, 64)`, entered with the
number read so far: a character that is not a digit ends it with `ErrSyntax`
and 0, an overflow of 64 bits ends it at once with `ErrRange` and the largest
`uint64`. -/
def parseUintLoop : List Char → Nat → Nat × Option NumError
  | [], n => (n, none)
  | ch :: rest, n =>
    if isDecimalDigit ch then
      if n ≥ maxUint64 / 10 + 1 then (maxUint64, some .ErrRange)
      else
        let n1 := n * 10 + (ch.toNat - 48)
        if n1 > maxUint64 then (maxUint64, some .ErrRange)
        else parseUintLoop rest n1
    else (0, some .ErrSyntax)

/-- Go's `strconv.ParseUint(s, 10, 64)`: the empty string is a syntax error. -/
def ParseUint (s : List Char) : Nat × Option NumError :=
  match s with
  | [] => (0, some .ErrSyntax)
  | _ :: _ => parseUintLoop s 0

/-- Go's `strconv.ParseInt(s, 10, 0)` with 64-bit `int`: an optional sign, then
`ParseUint`; a value out of range is replaced by the nearest `int`. -/
def ParseInt (s : String) : Int × Option NumError :=
  match s.data with
  | [] => (0, some .ErrSyntax)
  | ch :: rest =>
    let neg : Bool := ch = '-'
    let body := if ch = '+' ∨ ch = '-' then rest else ch :: rest
    match ParseUint body with
    | (_, some .ErrSyntax) => (0, some .ErrSyntax)
    | (un, _) =>
      if neg = false ∧ un ≥ 2 ^ 63 then (2 ^ 63 - 1, some .ErrRange)
      else if neg = true ∧ un > 2 ^ 63 then (-2 ^ 63, some .ErrRange)
      else (if neg then -(un : Int) else (un : Int), none)

/-- Go's `strconv.Atoi`: by its documentation `ParseInt(s, 10, 0)` converted to
`int`. -/
def Atoi (s : String) : Int × Option NumError := ParseInt s

/-- Function `BuildAthenaConfig` of `model.go`; the errors of `Atoi` are
dropped. -/
def BuildAthenaConfig (conf : StringMap) : Option Config :=
  if conf.length = 0 then none
  else
    let maxIv := (Atoi (conf.index "maxInterval")).1
    let maxTo := (Atoi (conf.index "maxTimeout")).1
    some { OutputLocation := conf.index "output_location"
           PollFrequency := conf.index "poll_frequency"
           MaxInterval := maxIv
           MaxTimeout := maxTo
           AccessID := conf.index "access_id"
           SecretKey := conf.index "secret_key"
           SessionToken := conf.index "session_token"
           Role := conf.index "role"
           Region := conf.index "region" }

/-- The number a list of decimal digits denotes, continuing from `n`. -/
def digitsValueFrom (n : Nat) (ds : List Char) : Nat :=
  ds.foldl (fun a ch => a * 10 + (ch.toNat - 48)) n

/-- The list is a nonempty list of decimal digits. -/
def validDigits (ds : List Char) : Bool := !ds.isEmpty && ds.all isDecimalDigit

/-- The decimal integer a string denotes: an optional sign followed by one or
more decimal digits; `none` for every other string. -/
def decimalValue (s : String) : Option Int :=
  match s.data with
  | [] => none
  | ch :: rest =>
    if ch = '-' then
      if validDigits rest then some (-(digitsValueFrom 0 rest : Int)) else none
    else if ch = '+' then
      if validDigits rest then some (digitsValueFrom 0 rest : Int) else none
    else
      if validDigits (ch :: rest) then some (digitsValueFrom 0 (ch :: rest) : Int) else none

/-- The characters of a string after its optional sign. -/
def signStripped (s : String) : List Char :=
  match s.data with
  | [] => []
  | ch :: rest => if ch = '+' ∨ ch = '-' then rest else ch :: rest

/-- The decimal digits that lead a string, after its optional sign. -/
def leadingDigits (s : String) : List Char :=
  (signStripped s).takeWhile isDecimalDigit

/-- The string starts with a minus sign. -/
def startsWithMinus (s : String) : Bool :=
  match s.data with
  | [] => false
  | ch :: _ => decide (ch = '-')

/-- How an integer field `n` of the config follows from the string `s` at its
key: the integer `s` denotes when that is in the range of `int`; the largest or
smallest `int` when it is above or below the range; and, when `s` denotes no
decimal integer, 0, unless the digits that lead `s` already exceed 64 bits,
where it is the largest `int`, or the smallest when `s` starts with a minus
sign.  Every string falls under exactly one of the five cases. -/
def ParsedAs (s : String) (n : Int) : Prop :=
  (∀ v, decimalValue s = some v → -2 ^ 63 ≤ v → v < 2 ^ 63 → n = v) ∧
  (∀ v, decimalValue s = some v → v ≥ 2 ^ 63 → n = 2 ^ 63 - 1) ∧
  (∀ v, decimalValue s = some v → v < -2 ^ 63 → n = -2 ^ 63) ∧
  (decimalValue s = none → digitsValueFrom 0 (leadingDigits s) ≤ maxUint64 → n = 0) ∧
  (decimalValue s = none → digitsValueFrom 0 (leadingDigits s) > maxUint64 →
    n = if startsWithMinus s then -2 ^ 63 else 2 ^ 63 - 1)

/-- The map of `TestBuildAthenaConfig`. -/
def testConf : StringMap :=
  [("maxInterval", "1"), ("maxTimeout", "1"), ("output_location", "test"),
   ("region", "testRegion"), ("role", "testRole")]

/-- The event is one the poll loop for id `i` may add: a status call for `i`
or a sleep. -/
def Event.isPollFor (i : String) : Event → Bool
  | .getExecution input _ _ => decide (input.QueryExecutionId = some i)
  | .sleep _ => true
  | _ => false

/-- The event is a status call or a fetch call for id `i`, or a sleep; a
submit call is not. -/
def Event.addressedTo (i : String) : Event → Bool
  | .getExecution input _ _ => decide (input.QueryExecutionId = some i)
  | .getResults input _ _ => decide (input.QueryExecutionId = some i)
  | .sleep _ => true
  | .startQuery _ _ _ => false

/-- The event is a fetch call. -/
def Event.isFetch : Event → Bool
  | .getResults _ _ _ => true
  | _ => false

/-- The execution id `ExecuteQuery` reads from a submit response. -/
def idOf (out : Option StartQueryExecutionOutput) : String :=
  match out with
  | some o => StringValue o.QueryExecutionId
  | none => ""

/-- What the poll loop for `i` added: status calls for `i` and sleeps only, and
when the loop returned nil, the last of them is a status call that reported
SUCCEEDED. -/
def PollTrace (i : String) (w : List Event) (res : Res (Option GoError)) : Prop :=
  (∀ ev ∈ w, ev.isPollFor i = true) ∧
    (res = .returned none →
      ∃ w0 qid sp, w = w0 ++ [polled i qid sp] ∧ StringValue sp = QueryExecutionStateSucceeded)

/-- A client like `MockAthenaClient` whose fetch succeeds with a response that
has no `ResultSet`. -/
def noResultSetClient : AthenaAPI where
  StartQueryExecution := MockAthenaClient.StartQueryExecution
  GetQueryExecution := MockAthenaClient.GetQueryExecution
  GetQueryResults := fun _ _ => (some { ResultSet := none }, none)

/-- A client like `MockAthenaClient` whose fetch succeeds with a response whose
`ResultSet` has rows but no `ResultSetMetadata`. -/
def noMetadataClient : AthenaAPI where
  StartQueryExecution := MockAthenaClient.StartQueryExecution
  GetQueryExecution := MockAthenaClient.GetQueryExecution
  GetQueryResults := fun _ _ =>
    (some { ResultSet := some { ResultSetMetadata := none, Rows := testRows } }, none)

/-- A request whose `QueryOpt` is the empty string. -/
def testEmptyOptParam : RequestParam :=
  { SQL := "SELECT 1", QueryID := "12345-12345", DataSource := "", DataBase := "viewership",
    NetworkID := 0, QueryOpt := "" }

/-! ## Basic facts about single calls -/

theorem ExecuteQuery_ok {c : AthenaEngine} {api : AthenaAPI} {p : RequestParam} {h : List Event}
    {o : StartQueryExecutionOutput} (hc : c.athena = some api)
    (hs : api.StartQueryExecution h (queryInput c p) = (some o, none)) :
    ExecuteQuery c (some p) h =
      ⟨h ++ [submitted c p o], .returned (StringValue o.QueryExecutionId, none)⟩ := by
  simp [ExecuteQuery, hc, hs, submitted]

theorem ExecuteQuery_err {c : AthenaEngine} {api : AthenaAPI} {p : RequestParam} {h : List Event}
    {o : Option StartQueryExecutionOutput} {e : GoError} (hc : c.athena = some api)
    (hs : api.StartQueryExecution h (queryInput c p) = (o, some e)) :
    ExecuteQuery c (some p) h =
      ⟨h ++ [.startQuery (queryInput c p) o (some e)], .returned ("", some e)⟩ := by
  simp [ExecuteQuery, hc, hs]

theorem CheckStatusByQueryID_ok {c : AthenaEngine} {api : AthenaAPI} {i : String}
    {h : List Event} {qid sp : Option String} (hc : c.athena = some api)
    (hs : api.GetQueryExecution h { QueryExecutionId := some i } =
      (some (statusOutput qid sp), none)) :
    CheckStatusByQueryID c i h =
      ⟨h ++ [polled i qid sp], .returned (StringValue sp, none)⟩ := by
  simp [CheckStatusByQueryID, hc, hs, polled, statusOutput]

theorem CheckStatusByQueryID_err {c : AthenaEngine} {api : AthenaAPI} {i : String}
    {h : List Event} {o : Option GetQueryExecutionOutput} {e : GoError}
    (hc : c.athena = some api)
    (hs : api.GetQueryExecution h { QueryExecutionId := some i } = (o, some e)) :
    CheckStatusByQueryID c i h =
      ⟨h ++ [.getExecution { QueryExecutionId := some i } o (some e)],
        .returned ("", some e)⟩ := by
  simp [CheckStatusByQueryID, hc, hs]

theorem getResultByQueryID_ok {c : AthenaEngine} {api : AthenaAPI} {i : String}
    {h : List Event} {cs : Slice (Option ColumnInfo)} {rs : Slice (Option Row)}
    (hc : c.athena = some api)
    (hf : api.GetQueryResults h { QueryExecutionId := some i } =
      (some (resultsOutput cs rs), none)) :
    getResultByQueryID c i h = ⟨h ++ [fetched i cs rs], .returned (cs, rs, none)⟩ := by
  simp [getResultByQueryID, hc, hf, fetched, resultsOutput]

theorem getResultByQueryID_err {c : AthenaEngine} {api : AthenaAPI} {i : String}
    {h : List Event} {o : Option GetQueryResultsOutput} {e : GoError}
    (hc : c.athena = some api)
    (hf : api.GetQueryResults h { QueryExecutionId := some i } = (o, some e)) :
    getResultByQueryID c i h =
      ⟨h ++ [.getResults { QueryExecutionId := some i } o (some e)],
        .returned (none, none, some e)⟩ := by
  simp [getResultByQueryID, hc, hf]

/-- One turn of the loop on a status call that reports SUCCEEDED. -/
theorem waitLoop_succeeded {c : AthenaEngine} {api : AthenaAPI} {i : String} {h : List Event}
    {qid : Option String} (fuel : Nat) (runtime : Int) (hc : c.athena = some api)
    (hs : api.GetQueryExecution h { QueryExecutionId := some i } =
      (some (statusOutput qid (some QueryExecutionStateSucceeded)), none)) :
    waitLoop c i (fuel + 1) runtime h =
      (runtime, ⟨h ++ [polled i qid (some QueryExecutionStateSucceeded)], .returned none⟩) := by
  simp [waitLoop, CheckStatusByQueryID_ok hc hs, StringValue, QueryExecutionStateSucceeded,
    QueryExecutionStateFailed, QueryExecutionStateCancelled]

/-- One turn of the loop on a status call that reports FAILED. -/
theorem waitLoop_failed {c : AthenaEngine} {api : AthenaAPI} {i : String} {h : List Event}
    {qid : Option String} (fuel : Nat) (runtime : Int) (hc : c.athena = some api)
    (hs : api.GetQueryExecution h { QueryExecutionId := some i } =
      (some (statusOutput qid (some QueryExecutionStateFailed)), none)) :
    waitLoop c i (fuel + 1) runtime h =
      (runtime, ⟨h ++ [polled i qid (some QueryExecutionStateFailed)],
        .returned (some ⟨"The Athena Query " ++ i ++ " is failed"⟩)⟩) := by
  simp [waitLoop, CheckStatusByQueryID_ok hc hs, StringValue, QueryExecutionStateFailed]

/-- One turn of the loop on a status call that reports CANCELLED. -/
theorem waitLoop_cancelled {c : AthenaEngine} {api : AthenaAPI} {i : String} {h : List Event}
    {qid : Option String} (fuel : Nat) (runtime : Int) (hc : c.athena = some api)
    (hs : api.GetQueryExecution h { QueryExecutionId := some i } =
      (some (statusOutput qid (some QueryExecutionStateCancelled)), none)) :
    waitLoop c i (fuel + 1) runtime h =
      (runtime, ⟨h ++ [polled i qid (some QueryExecutionStateCancelled)],
        .returned (some ⟨"The Athena Query " ++ i ++ " is cancelled"⟩)⟩) := by
  simp [waitLoop, CheckStatusByQueryID_ok hc hs, StringValue, QueryExecutionStateFailed,
    QueryExecutionStateCancelled]

/-- One turn of the loop on a status call that reports RUNNING. -/
theorem waitLoop_running {c : AthenaEngine} {api : AthenaAPI} {i : String} {h : List Event}
    {qid : Option String} (fuel : Nat) (runtime : Int) (hc : c.athena = some api)
    (hs : api.GetQueryExecution h { QueryExecutionId := some i } =
      (some (statusOutput qid (some QueryExecutionStateRunning)), none)) :
    waitLoop c i (fuel + 1) runtime h =
      if wrapInt (runtime + c.MaxInterval) > c.MaxTimeout then
        (wrapInt (runtime + c.MaxInterval),
          ⟨h ++ [polled i qid (some QueryExecutionStateRunning)],
            .returned (some ⟨"The Athena Query " ++ i ++ " is timeout"⟩)⟩)
      else
        waitLoop c i fuel (wrapInt (runtime + c.MaxInterval))
          (h ++ [polled i qid (some QueryExecutionStateRunning)] ++ [.sleep 3]) := by
  simp [waitLoop, CheckStatusByQueryID_ok hc hs, StringValue, QueryExecutionStateFailed,
    QueryExecutionStateCancelled, QueryExecutionStateSucceeded, QueryExecutionStateRunning]

/-- One turn of the loop on a status call that reports a state outside the four
the `switch` names: nothing but the call happens. -/
theorem waitLoop_other {c : AthenaEngine} {api : AthenaAPI} {i : String} {h : List Event}
    {qid sp : Option String} (fuel : Nat) (runtime : Int) (hc : c.athena = some api)
    (hs : api.GetQueryExecution h { QueryExecutionId := some i } =
      (some (statusOutput qid sp), none))
    (h1 : StringValue sp ≠ QueryExecutionStateFailed)
    (h2 : StringValue sp ≠ QueryExecutionStateCancelled)
    (h3 : StringValue sp ≠ QueryExecutionStateSucceeded)
    (h4 : StringValue sp ≠ QueryExecutionStateRunning) :
    waitLoop c i (fuel + 1) runtime h = waitLoop c i fuel runtime (h ++ [polled i qid sp]) := by
  simp [waitLoop, CheckStatusByQueryID_ok hc hs, h1, h2, h3, h4]

theorem wrapInt_of_range {x : Int} (hlo : -2 ^ 63 ≤ x) (hhi : x < 2 ^ 63) : wrapInt x = x := by
  unfold wrapInt
  omega

/-- Multiples of the interval up to the first one above the timeout stay in the
range of `int` when the interval and that first multiple do. -/
theorem multiples_in_range {mi mt : Int} {k : Nat}
    (hgt : (k : Int) * mi > mt)
    (hleast : ∀ j : Nat, 1 ≤ j → j < k → (j : Int) * mi ≤ mt)
    (hlo : -2 ^ 63 ≤ mi) (hhi : (k : Int) * mi < 2 ^ 63) (j : Nat) (h1 : 1 ≤ j) (hj : j ≤ k) :
    -2 ^ 63 ≤ (j : Int) * mi ∧ (j : Int) * mi < 2 ^ 63 := by
  rcases Nat.lt_or_ge j k with hlt | hge
  · have hone := hleast 1 (le_refl 1) (by omega)
    have hpos : 0 < mi := by
      by_contra hneg
      have hk1 : (1 : Int) ≤ (k : Int) := by exact_mod_cast (by omega : 1 ≤ k)
      have : (k : Int) * mi ≤ 1 * mi := by
        apply mul_le_mul_of_nonpos_right hk1
        omega
      simp at hone
      omega
    have hj1 : (1 : Int) ≤ (j : Int) := by exact_mod_cast h1
    have hjk : (j : Int) ≤ (k : Int) := by exact_mod_cast hj
    have ha : 1 * mi ≤ (j : Int) * mi := mul_le_mul_of_nonneg_right hj1 (le_of_lt hpos)
    have hb : (j : Int) * mi ≤ (k : Int) * mi := mul_le_mul_of_nonneg_right hjk (le_of_lt hpos)
    constructor <;> omega
  · have : j = k := by omega
    subst this
    by_cases hone : j = 1
    · subst hone
      constructor <;> omega
    · have hm := hleast 1 (le_refl 1) (by omega)
      simp at hm
      constructor <;> omega

/-- The loop against a status that stays RUNNING, entered after `m` turns with
`d + 1` turns to go before the runtime first exceeds the timeout. -/
theorem waitLoop_running_steps {c : AthenaEngine} {api : AthenaAPI} {i : String} {k : Nat}
    (hc : c.athena = some api)
    (hrun : ∀ h : List Event, ∃ qid, api.GetQueryExecution h { QueryExecutionId := some i } =
      (some (statusOutput qid (some QueryExecutionStateRunning)), none))
    (hgt : (k : Int) * c.MaxInterval > c.MaxTimeout)
    (hleast : ∀ j : Nat, 1 ≤ j → j < k → (j : Int) * c.MaxInterval ≤ c.MaxTimeout)
    (hrange : ∀ j : Nat, 1 ≤ j → j ≤ k →
      -2 ^ 63 ≤ (j : Int) * c.MaxInterval ∧ (j : Int) * c.MaxInterval < 2 ^ 63) :
    ∀ (d m : Nat), m + d + 1 = k → ∀ (fuel : Nat) (h : List Event), d + 1 ≤ fuel →
      ∃ t, waitLoop c i fuel ((m : Int) * c.MaxInterval) h =
          ((k : Int) * c.MaxInterval,
            ⟨h ++ t, .returned (some ⟨"The Athena Query " ++ i ++ " is timeout"⟩)⟩) ∧
        statusCalls t = d + 1 ∧ sleeps t = d ∧ t.length = 2 * d + 1 := by
  intro d
  induction d with
  | zero =>
    intro m hm fuel h hfuel
    obtain ⟨f, rfl⟩ : ∃ f, fuel = f + 1 := ⟨fuel - 1, by omega⟩
    obtain ⟨qid, hq⟩ := hrun h
    have hr := hrange (m + 1) (by omega) (by omega)
    have heq : (m : Int) * c.MaxInterval + c.MaxInterval = ((m + 1 : Nat) : Int) * c.MaxInterval := by
      push_cast; ring
    have hk : ((m + 1 : Nat) : Int) * c.MaxInterval = (k : Int) * c.MaxInterval := by
      rw [← hm]
    refine ⟨[polled i qid (some QueryExecutionStateRunning)], ?_, ?_, ?_, ?_⟩
    · rw [waitLoop_running f _ hc hq, heq, wrapInt_of_range hr.1 hr.2, hk, if_pos hgt]
    · simp [statusCalls, polled]
    · simp [sleeps, polled]
    · simp
  | succ d ih =>
    intro m hm fuel h hfuel
    obtain ⟨f, rfl⟩ : ∃ f, fuel = f + 1 := ⟨fuel - 1, by omega⟩
    obtain ⟨qid, hq⟩ := hrun h
    have hr := hrange (m + 1) (by omega) (by omega)
    have heq : (m : Int) * c.MaxInterval + c.MaxInterval = ((m + 1 : Nat) : Int) * c.MaxInterval := by
      push_cast; ring
    have hle := hleast (m + 1) (by omega) (by omega)
    obtain ⟨t, ht, hs, hsl, hlen⟩ := ih (m + 1) (by omega) f
      (h ++ [polled i qid (some QueryExecutionStateRunning)] ++ [.sleep 3]) (by omega)
    refine ⟨polled i qid (some QueryExecutionStateRunning) :: .sleep 3 :: t, ?_, ?_, ?_, ?_⟩
    · rw [waitLoop_running f _ hc hq, heq, wrapInt_of_range hr.1 hr.2,
        if_neg (not_lt.mpr hle), ht]
      simp
    · simp [statusCalls, polled] at hs ⊢
      exact hs
    · simp [sleeps, polled] at hsl ⊢
      exact hsl
    · simp [hlen]
      omega

/-- With `QueryOpt = "queryResult"`, `Exec` is `QueryResult`. -/
theorem Exec_of_result {p : RequestParam} (fuel : Nat) (c : AthenaEngine) (h : List Event)
    (hopt : p.QueryOpt = QueryOptResult) :
    Exec fuel c (some p) h = QueryResult fuel c (some p) h := by
  have hne1 : ¬ p.QueryOpt = QueryOptStart := by rw [hopt]; decide
  have hne2 : ¬ p.QueryOpt = QueryOptStatus := by rw [hopt]; decide
  simp only [Exec, if_neg hne1, if_neg hne2, if_pos hopt]

/-! ## A failed client call ends the run -/

theorem Clean_nil : Clean [] := by
  intro ev hev
  simp at hev

theorem Clean_append {t1 t2 : List Event} (h1 : Clean t1) (h2 : Clean t2) :
    Clean (t1 ++ t2) := by
  intro ev hev
  rcases List.mem_append.mp hev with hm | hm
  · exact h1 ev hm
  · exact h2 ev hm

theorem Clean_singleton {ev : Event} (h : ev.err = none) : Clean [ev] := by
  intro e he
  simp at he
  rw [he]
  exact h

theorem ErrLast_refl (h : List Event) (P : GoError → Prop) : ErrLast h h P :=
  ⟨[], by simp, Or.inl Clean_nil⟩

theorem ErrLast_clean {h : List Event} {t : List Event} (P : GoError → Prop) (ht : Clean t) :
    ErrLast h (h ++ t) P :=
  ⟨t, rfl, Or.inl ht⟩

/-- A clean stretch followed by a stretch whose only failure is last. -/
theorem ErrLast_trans {h : List Event} {t1 tr : List Event} {P : GoError → Prop}
    (h1 : Clean t1) (h2 : ErrLast (h ++ t1) tr P) : ErrLast h tr P := by
  obtain ⟨t2, htr, hcase⟩ := h2
  refine ⟨t1 ++ t2, by rw [htr, List.append_assoc], ?_⟩
  rcases hcase with hcl | ⟨t3, ev, e, ht2, hcl, herr, hP⟩
  · exact Or.inl (Clean_append h1 hcl)
  · refine Or.inr ⟨t1 ++ t3, ev, e, by rw [ht2, List.append_assoc], Clean_append h1 hcl, herr, hP⟩

theorem ErrLast_mono {h tr : List Event} {P Q : GoError → Prop} (hPQ : ∀ e, P e → Q e)
    (h1 : ErrLast h tr P) : ErrLast h tr Q := by
  obtain ⟨t, htr, hcase⟩ := h1
  refine ⟨t, htr, ?_⟩
  rcases hcase with hcl | ⟨t3, ev, e, ht2, hcl, herr, hP⟩
  · exact Or.inl hcl
  · exact Or.inr ⟨t3, ev, e, ht2, hcl, herr, hPQ e hP⟩

/-- When the error predicate cannot hold, the added events are clean. -/
theorem ErrLast_clean_of_not {h tr : List Event} {P : GoError → Prop} (hP : ∀ e, ¬ P e)
    (h1 : ErrLast h tr P) : ∃ t, tr = h ++ t ∧ Clean t := by
  obtain ⟨t, htr, hcase⟩ := h1
  rcases hcase with hcl | ⟨t3, ev, e, _, _, _, hPe⟩
  · exact ⟨t, htr, hcl⟩
  · exact absurd hPe (hP e)

/-- What `ErrLast` says about a failed call found anywhere in the added events:
it is the last one and its error satisfies `P`. -/
theorem ErrLast_elim {h t : List Event} {P : GoError → Prop} (h1 : ErrLast h (h ++ t) P)
    {pre post : List Event} {ev : Event} {e : GoError} (ht : t = pre ++ ev :: post)
    (herr : ev.err = some e) : post = [] ∧ P e := by
  obtain ⟨t0, htr, hcase⟩ := h1
  have ht0 : t = t0 := List.append_cancel_left htr
  subst ht0
  have hmem : ev ∈ t := by rw [ht]; simp
  rcases hcase with hcl | ⟨t1, ev1, e1, ht1, hcl, herr1, hP⟩
  · have := hcl ev hmem
    rw [herr] at this
    cases this
  · rcases List.eq_nil_or_concat post with hp | ⟨post1, x, hp⟩
    · subst hp
      have hinj := List.append_inj' (ht.symm.trans ht1) rfl
      have hev : ev = ev1 := by simpa using hinj.2
      subst hev
      rw [herr] at herr1
      cases herr1
      exact ⟨rfl, hP⟩
    · subst hp
      have heq : (pre ++ ev :: post1) ++ [x] = t1 ++ [ev1] := by
        rw [← ht1, ht]; simp
      have hinj := List.append_inj' heq rfl
      have hin : ev ∈ t1 := by rw [← hinj.1]; simp
      have := hcl ev hin
      rw [herr] at this
      cases this

theorem ExecuteQuery_errLast (c : AthenaEngine) (qi : Option RequestParam) (h : List Event) :
    ErrLast h (ExecuteQuery c qi h).trace
      (fun e => (ExecuteQuery c qi h).res = .returned ("", some e)) := by
  cases qi with
  | none => simp only [ExecuteQuery]; exact ErrLast_refl _ _
  | some q =>
    cases hca : c.athena with
    | none => simp only [ExecuteQuery, hca]; exact ErrLast_refl _ _
    | some api =>
      rcases hr : api.StartQueryExecution h (queryInput c q) with ⟨o, e⟩
      cases e with
      | some err =>
        rw [ExecuteQuery_err hca hr]
        exact ⟨_, rfl, Or.inr ⟨[], _, err, rfl, Clean_nil, rfl, rfl⟩⟩
      | none =>
        cases o with
        | none =>
          simp only [ExecuteQuery, hca, hr]
          exact ErrLast_clean _ (Clean_singleton rfl)
        | some out =>
          rw [ExecuteQuery_ok hca hr]
          exact ErrLast_clean _ (Clean_singleton rfl)

theorem CheckStatusByQueryID_errLast (c : AthenaEngine) (i : String) (h : List Event) :
    ErrLast h (CheckStatusByQueryID c i h).trace
      (fun e => (CheckStatusByQueryID c i h).res = .returned ("", some e)) := by
  cases hca : c.athena with
  | none => simp only [CheckStatusByQueryID, hca]; exact ErrLast_refl _ _
  | some api =>
    rcases hr : api.GetQueryExecution h { QueryExecutionId := some i } with ⟨o, e⟩
    cases e with
    | some err =>
      rw [CheckStatusByQueryID_err hca hr]
      exact ⟨_, rfl, Or.inr ⟨[], _, err, rfl, Clean_nil, rfl, rfl⟩⟩
    | none =>
      cases o with
      | none =>
        simp only [CheckStatusByQueryID, hca, hr]
        exact ErrLast_clean _ (Clean_singleton rfl)
      | some out =>
        rcases out with ⟨qe⟩
        cases qe with
        | none =>
          simp only [CheckStatusByQueryID, hca, hr]
          exact ErrLast_clean _ (Clean_singleton rfl)
        | some qe =>
          rcases qe with ⟨qid, st⟩
          cases st with
          | none =>
            simp only [CheckStatusByQueryID, hca, hr]
            exact ErrLast_clean _ (Clean_singleton rfl)
          | some st =>
            simp only [CheckStatusByQueryID, hca, hr]
            exact ErrLast_clean _ (Clean_singleton rfl)

theorem getResultByQueryID_errLast (c : AthenaEngine) (i : String) (h : List Event) :
    ErrLast h (getResultByQueryID c i h).trace
      (fun e => (getResultByQueryID c i h).res = .returned (none, none, some e)) := by
  cases hca : c.athena with
  | none => simp only [getResultByQueryID, hca]; exact ErrLast_refl _ _
  | some api =>
    rcases hr : api.GetQueryResults h { QueryExecutionId := some i } with ⟨o, e⟩
    cases e with
    | some err =>
      rw [getResultByQueryID_err hca hr]
      exact ⟨_, rfl, Or.inr ⟨[], _, err, rfl, Clean_nil, rfl, rfl⟩⟩
    | none =>
      cases o with
      | none =>
        simp only [getResultByQueryID, hca, hr]
        exact ErrLast_clean _ (Clean_singleton rfl)
      | some out =>
        rcases out with ⟨rset⟩
        cases rset with
        | none =>
          simp only [getResultByQueryID, hca, hr]
          exact ErrLast_clean _ (Clean_singleton rfl)
        | some rset =>
          rcases rset with ⟨md, rows⟩
          cases md with
          | none =>
            simp only [getResultByQueryID, hca, hr]
            exact ErrLast_clean _ (Clean_singleton rfl)
          | some md =>
            simp only [getResultByQueryID, hca, hr]
            exact ErrLast_clean _ (Clean_singleton rfl)

theorem waitLoop_errLast (c : AthenaEngine) (i : String) :
    ∀ (fuel : Nat) (runtime : Int) (h : List Event),
      ErrLast h (waitLoop c i fuel runtime h).2.trace
        (fun e => (waitLoop c i fuel runtime h).2.res = .returned (some e)) := by
  intro fuel
  induction fuel with
  | zero =>
    intro runtime h
    simp only [waitLoop]
    exact ErrLast_refl _ _
  | succ n ih =>
    intro runtime h
    have hck := CheckStatusByQueryID_errLast c i h
    rcases hR : CheckStatusByQueryID c i h with ⟨h1, res⟩
    rw [hR] at hck
    cases res with
    | panicked =>
      obtain ⟨t1, ht1, hcl⟩ := ErrLast_clean_of_not (fun e he => by cases he) hck
      simp only [waitLoop, hR]
      exact ⟨t1, ht1, Or.inl hcl⟩
    | running =>
      obtain ⟨t1, ht1, hcl⟩ := ErrLast_clean_of_not (fun e he => by cases he) hck
      simp only [waitLoop, hR]
      exact ⟨t1, ht1, Or.inl hcl⟩
    | returned v =>
      rcases v with ⟨s, e⟩
      cases e with
      | some err =>
        simp only [waitLoop, hR]
        refine ErrLast_mono (fun e he => ?_) hck
        simp only [Res.returned.injEq, Prod.mk.injEq, Option.some.injEq] at he
        rw [he.2]
      | none =>
        obtain ⟨t1, ht1, hcl⟩ := ErrLast_clean_of_not (fun e he => by cases he) hck
        simp only at ht1
        subst ht1
        simp only [waitLoop, hR]
        split_ifs
        · exact ErrLast_clean _ hcl
        · exact ErrLast_clean _ hcl
        · exact ErrLast_clean _ hcl
        · exact ErrLast_clean _ hcl
        · rw [List.append_assoc]
          have hsl : Clean [Event.sleep 3] := Clean_singleton rfl
          exact ErrLast_trans (Clean_append hcl hsl) (ih _ _)
        · exact ErrLast_trans hcl (ih runtime (h ++ t1))

theorem waitQueryToFinish_errLast (fuel : Nat) (c : AthenaEngine) (i : String) (h : List Event) :
    ErrLast h (waitQueryToFinish fuel c i h).trace
      (fun e => (waitQueryToFinish fuel c i h).res = .returned (some e)) := by
  cases hca : c.athena with
  | none => simp only [waitQueryToFinish, hca]; exact ErrLast_refl _ _
  | some api => simp only [waitQueryToFinish, hca]; exact waitLoop_errLast c i fuel 0 h

theorem QueryResult_errLast (fuel : Nat) (c : AthenaEngine) (qi : Option RequestParam)
    (h : List Event) :
    ErrLast h (QueryResult fuel c qi h).trace
      (fun e => (QueryResult fuel c qi h).res = .returned (none, some e)) := by
  have hex := ExecuteQuery_errLast c qi h
  rcases hE : ExecuteQuery c qi h with ⟨h1, res⟩
  rw [hE] at hex
  cases res with
  | panicked =>
    obtain ⟨t1, ht1, hcl⟩ := ErrLast_clean_of_not (fun e he => by cases he) hex
    simp only [QueryResult, hE]
    exact ⟨t1, ht1, Or.inl hcl⟩
  | running =>
    obtain ⟨t1, ht1, hcl⟩ := ErrLast_clean_of_not (fun e he => by cases he) hex
    simp only [QueryResult, hE]
    exact ⟨t1, ht1, Or.inl hcl⟩
  | returned v =>
    rcases v with ⟨qid, e⟩
    cases e with
    | some err =>
      simp only [QueryResult, hE]
      refine ErrLast_mono (fun e he => ?_) hex
      simp only [Res.returned.injEq, Prod.mk.injEq, Option.some.injEq] at he
      rw [he.2]
    | none =>
      obtain ⟨t1, ht1, hcl1⟩ := ErrLast_clean_of_not (fun e he => by cases he) hex
      simp only at ht1
      subst ht1
      have hwt := waitQueryToFinish_errLast fuel c qid (h ++ t1)
      rcases hW : waitQueryToFinish fuel c qid (h ++ t1) with ⟨h2, res2⟩
      rw [hW] at hwt
      cases res2 with
      | panicked =>
        obtain ⟨t2, ht2, hcl2⟩ := ErrLast_clean_of_not (fun e he => by cases he) hwt
        simp only [QueryResult, hE, hW]
        exact ErrLast_trans hcl1 ⟨t2, ht2, Or.inl hcl2⟩
      | running =>
        obtain ⟨t2, ht2, hcl2⟩ := ErrLast_clean_of_not (fun e he => by cases he) hwt
        simp only [QueryResult, hE, hW]
        exact ErrLast_trans hcl1 ⟨t2, ht2, Or.inl hcl2⟩
      | returned v2 =>
        cases v2 with
        | some err =>
          simp only [QueryResult, hE, hW]
          refine ErrLast_trans hcl1 (ErrLast_mono (fun e he => ?_) hwt)
          simp only [Res.returned.injEq, Option.some.injEq] at he
          rw [he]
        | none =>
          obtain ⟨t2, ht2, hcl2⟩ := ErrLast_clean_of_not (fun e he => by cases he) hwt
          simp only at ht2
          subst ht2
          have hgt := getResultByQueryID_errLast c qid (h ++ t1 ++ t2)
          rcases hG : getResultByQueryID c qid (h ++ t1 ++ t2) with ⟨h3, res3⟩
          rw [hG] at hgt
          cases res3 with
          | panicked =>
            obtain ⟨t3, ht3, hcl3⟩ := ErrLast_clean_of_not (fun e he => by cases he) hgt
            simp only [QueryResult, hE, hW, hG]
            exact ErrLast_trans hcl1 (ErrLast_trans hcl2 ⟨t3, ht3, Or.inl hcl3⟩)
          | running =>
            obtain ⟨t3, ht3, hcl3⟩ := ErrLast_clean_of_not (fun e he => by cases he) hgt
            simp only [QueryResult, hE, hW, hG]
            exact ErrLast_trans hcl1 (ErrLast_trans hcl2 ⟨t3, ht3, Or.inl hcl3⟩)
          | returned v3 =>
            rcases v3 with ⟨cols, rows, e3⟩
            cases e3 with
            | some err =>
              simp only [QueryResult, hE, hW, hG]
              refine ErrLast_trans hcl1 (ErrLast_trans hcl2 (ErrLast_mono (fun e he => ?_) hgt))
              simp only [Res.returned.injEq, Prod.mk.injEq, Option.some.injEq] at he
              rw [he.2.2]
            | none =>
              obtain ⟨t3, ht3, hcl3⟩ := ErrLast_clean_of_not (fun e he => by cases he) hgt
              simp only [QueryResult, hE, hW, hG]
              exact ErrLast_trans hcl1 (ErrLast_trans hcl2 ⟨t3, ht3, Or.inl hcl3⟩)

theorem Exec_errLast (fuel : Nat) (c : AthenaEngine) (param : Option RequestParam)
    (h : List Event) :
    ErrLast h (Exec fuel c param h).trace
      (fun e => (Exec fuel c param h).res = .returned (none, some e)) := by
  cases param with
  | none => simp only [Exec]; exact ErrLast_refl _ _
  | some p =>
    by_cases ho1 : p.QueryOpt = QueryOptStart
    · have hex := ExecuteQuery_errLast c (some p) h
      rcases hE : ExecuteQuery c (some p) h with ⟨h1, res⟩
      rw [hE] at hex
      cases res with
      | panicked => simp only [Exec, if_pos ho1, hE]; exact ErrLast_mono (fun e he => by cases he) hex
      | running => simp only [Exec, if_pos ho1, hE]; exact ErrLast_mono (fun e he => by cases he) hex
      | returned v =>
        rcases v with ⟨qid, e⟩
        cases e with
        | some err =>
          simp only [Exec, if_pos ho1, hE]
          refine ErrLast_mono (fun e he => ?_) hex
          simp only [Res.returned.injEq, Prod.mk.injEq, Option.some.injEq] at he
          rw [he.2]
        | none =>
          simp only [Exec, if_pos ho1, hE]
          exact ErrLast_mono (fun e he => by cases he) hex
    · by_cases ho2 : p.QueryOpt = QueryOptStatus
      · have hck := CheckStatusByQueryID_errLast c p.QueryID h
        rcases hR : CheckStatusByQueryID c p.QueryID h with ⟨h1, res⟩
        rw [hR] at hck
        cases res with
        | panicked =>
          simp only [Exec, if_neg ho1, if_pos ho2, hR]
          exact ErrLast_mono (fun e he => by cases he) hck
        | running =>
          simp only [Exec, if_neg ho1, if_pos ho2, hR]
          exact ErrLast_mono (fun e he => by cases he) hck
        | returned v =>
          rcases v with ⟨st, e⟩
          cases e with
          | some err =>
            simp only [Exec, if_neg ho1, if_pos ho2, hR]
            refine ErrLast_mono (fun e he => ?_) hck
            simp only [Res.returned.injEq, Prod.mk.injEq, Option.some.injEq] at he
            rw [he.2]
          | none =>
            simp only [Exec, if_neg ho1, if_pos ho2, hR]
            exact ErrLast_mono (fun e he => by cases he) hck
      · by_cases ho3 : p.QueryOpt = QueryOptResult
        · simp only [Exec, if_neg ho1, if_neg ho2, if_pos ho3]
          exact QueryResult_errLast fuel c (some p) h
        · simp only [Exec, if_neg ho1, if_neg ho2, if_neg ho3]
          exact ErrLast_refl _ _

/-! ## Construction -/

theorem getAthenaWithRole_ok {sdk : Sdk} {s : Session} (role : String)
    (hs : sdk.NewSession [] = (some s, none)) :
    getAthenaWithRole sdk role =
      .returned (sdk.New s [{ Region := none, Credentials := some (sdk.NewCredentials s role) }]) := by
  simp [getAthenaWithRole, NewSessionWithRole, NewSession, athenaNew, hs]

theorem getAthenaWithRegion_ok {sdk : Sdk} {s : Session} (region : String)
    (hs : sdk.NewSession [{ Region := some region, Credentials := none }] = (some s, none)) :
    getAthenaWithRegion sdk region = .returned (sdk.New s []) := by
  simp [getAthenaWithRegion, NewSessionWithRegion, athenaNew, hs]

/-- With a config that is present, `setupAthenaSession` returns an error exactly
when role and region are both empty. -/
theorem setupAthenaSession_error_iff (sdk : Sdk) (c : AthenaEngine) (cfg : Config) :
    (∃ c1 e, setupAthenaSession sdk c (some cfg) = .returned (c1, some e)) ↔
      (cfg.Role = "" ∧ cfg.Region = "") := by
  by_cases hr : cfg.Role = ""
  · by_cases hg : cfg.Region = ""
    · simp [setupAthenaSession, hr, hg]
    · simp only [setupAthenaSession, hr, hg, ne_eq, not_true_eq_false, if_false,
        not_false_eq_true, if_true, and_false, iff_false]
      rintro ⟨c1, e, he⟩
      cases hq : getAthenaWithRegion sdk cfg.Region <;> rw [hq] at he <;> cases he
  · simp only [setupAthenaSession, hr, ne_eq, not_false_eq_true, if_true, false_and, iff_false]
    rintro ⟨c1, e, he⟩
    cases hq : getAthenaWithRole sdk cfg.Role <;> rw [hq] at he <;> cases he

/-- When sessions are created, a config with a role or a region gives the
engine a client. -/
theorem setupAthenaSession_ok (sdk : Sdk) (cfg : Config)
    (hS : SessionsSucceed sdk) (hcfg : cfg.Role ≠ "" ∨ cfg.Region ≠ "") :
    ∃ a, ∀ c : AthenaEngine,
      setupAthenaSession sdk c (some cfg) = .returned ({ c with athena := some a }, none) := by
  by_cases hr : cfg.Role = ""
  · have hg : cfg.Region ≠ "" := by
      rcases hcfg with h1 | h1
      · exact absurd hr h1
      · exact h1
    obtain ⟨s, hs⟩ := hS [{ Region := some cfg.Region, Credentials := none }]
    refine ⟨sdk.New s [], fun c => ?_⟩
    simp [setupAthenaSession, hr, hg, getAthenaWithRegion_ok cfg.Region hs]
  · obtain ⟨s, hs⟩ := hS []
    refine ⟨sdk.New s [{ Region := none, Credentials := some (sdk.NewCredentials s cfg.Role) }],
      fun c => ?_⟩
    simp [setupAthenaSession, hr, getAthenaWithRole_ok cfg.Role hs]

/-! ## The claims -/

/-- C1: for every engine configuration and every request with `QueryOpt =
"queryResult"`, if the client's submit returns execution id `i`, its first
status call reports SUCCEEDED and its fetch returns columns `cs` and rows `rs`,
then `Exec` returns the response `(i, SUCCEEDED, cs, rs)` with no error, having
made exactly one submit, one status and one fetch call, without sleeping and
with the loop's `runtime` still `0`. -/
theorem Exec_queryResult_succeeded (fuel : Nat) (c : AthenaEngine) (api : AthenaAPI)
    (p : RequestParam) (h : List Event) (o : StartQueryExecutionOutput) (i : String)
    (qid : Option String) (cs : Slice (Option ColumnInfo)) (rs : Slice (Option Row))
    (hc : c.athena = some api) (hopt : p.QueryOpt = QueryOptResult)
    (hsub : api.StartQueryExecution h (queryInput c p) = (some o, none))
    (hi : StringValue o.QueryExecutionId = i)
    (hst : api.GetQueryExecution (h ++ [submitted c p o]) { QueryExecutionId := some i } =
      (some (statusOutput qid (some QueryExecutionStateSucceeded)), none))
    (hf : api.GetQueryResults
        (h ++ [submitted c p o, polled i qid (some QueryExecutionStateSucceeded)])
        { QueryExecutionId := some i } = (some (resultsOutput cs rs), none)) :
    Exec (fuel + 1) c (some p) h =
        ⟨h ++ [submitted c p o, polled i qid (some QueryExecutionStateSucceeded),
               fetched i cs rs],
          .returned (some { QueryID := i, QueryStatus := "SUCCEEDED",
                            Columns := cs, Rows := rs }, none)⟩ ∧
      (waitLoop c i (fuel + 1) 0 (h ++ [submitted c p o])).1 = 0 := by
  subst hi
  have hw := waitLoop_succeeded fuel 0 hc hst
  refine ⟨?_, by rw [hw]⟩
  have hf2 := @getResultByQueryID_ok c api (StringValue o.QueryExecutionId)
    (h ++ [submitted c p o] ++
      [polled (StringValue o.QueryExecutionId) qid (some QueryExecutionStateSucceeded)])
    cs rs hc (by simpa using hf)
  rw [Exec_of_result _ _ _ hopt]
  simp only [QueryResult, ExecuteQuery_ok hc hsub, waitQueryToFinish, hc, hw, hf2]
  simp [QueryExecutionStateSucceeded]

theorem Exec_queryResult_succeeded_witness :
    Exec 1 (testEngine MockAthenaClient 0 0) (some testQueryResultParam) [] =
      ⟨[] ++ [submitted (testEngine MockAthenaClient 0 0) testQueryResultParam
            { QueryExecutionId := some "12345-12345" },
          polled "12345-12345" none (some QueryExecutionStateSucceeded),
          fetched "12345-12345" testColumns testRows],
        .returned (some { QueryID := "12345-12345", QueryStatus := "SUCCEEDED",
                          Columns := testColumns, Rows := testRows }, none)⟩ :=
  (Exec_queryResult_succeeded 0 (testEngine MockAthenaClient 0 0) MockAthenaClient
    testQueryResultParam [] { QueryExecutionId := some "12345-12345" } "12345-12345" none
    testColumns testRows rfl rfl rfl rfl rfl rfl).1

/-- C2: if the first status call for `i` reports FAILED or CANCELLED, then
`waitQueryToFinish` returns the error "The Athena Query i is failed" resp.
"... is cancelled" after exactly that one status call (no further poll, no
sleep, no fetch), and `Exec` with "queryResult", whose submit returned `i`,
returns a nil response with that error after one submit and one status call. -/
theorem waitQueryToFinish_terminal_failure (fuel : Nat) (c : AthenaEngine) (api : AthenaAPI)
    (i s : String) (h : List Event) (qid : Option String)
    (hc : c.athena = some api)
    (hs : s = QueryExecutionStateFailed ∨ s = QueryExecutionStateCancelled)
    (hst : api.GetQueryExecution h { QueryExecutionId := some i } =
      (some (statusOutput qid (some s)), none)) :
    waitQueryToFinish (fuel + 1) c i h =
        ⟨h ++ [polled i qid (some s)],
          .returned (some ⟨if s = QueryExecutionStateFailed
            then "The Athena Query " ++ i ++ " is failed"
            else "The Athena Query " ++ i ++ " is cancelled"⟩)⟩ ∧
      ∀ (p : RequestParam) (o : StartQueryExecutionOutput) (h0 : List Event),
        p.QueryOpt = QueryOptResult →
        api.StartQueryExecution h0 (queryInput c p) = (some o, none) →
        StringValue o.QueryExecutionId = i →
        h = h0 ++ [submitted c p o] →
        Exec (fuel + 1) c (some p) h0 =
          ⟨h0 ++ [submitted c p o, polled i qid (some s)],
            .returned (none, some ⟨if s = QueryExecutionStateFailed
              then "The Athena Query " ++ i ++ " is failed"
              else "The Athena Query " ++ i ++ " is cancelled"⟩)⟩ := by
  have hw : waitQueryToFinish (fuel + 1) c i h =
        ⟨h ++ [polled i qid (some s)],
          .returned (some ⟨if s = QueryExecutionStateFailed
            then "The Athena Query " ++ i ++ " is failed"
            else "The Athena Query " ++ i ++ " is cancelled"⟩)⟩ := by
    rcases hs with hs | hs
    · subst hs
      simp [waitQueryToFinish, hc, waitLoop_failed fuel 0 hc hst]
    · subst hs
      have hne : ¬ QueryExecutionStateCancelled = QueryExecutionStateFailed := by decide
      simp [waitQueryToFinish, hc, waitLoop_cancelled fuel 0 hc hst, hne]
  refine ⟨hw, ?_⟩
  intro p o h0 hopt hsub hi hh
  subst hh
  subst hi
  rw [Exec_of_result _ _ _ hopt]
  simp only [QueryResult, ExecuteQuery_ok hc hsub, hw]
  simp

theorem waitQueryToFinish_terminal_failure_witness :
    waitQueryToFinish 1 (testEngine (MockAthenaClientWait "FAILED") 1 1) "1234-1234" [] =
      ⟨[] ++ [polled "1234-1234" none (some "FAILED")],
        .returned (some ⟨if "FAILED" = QueryExecutionStateFailed
            then "The Athena Query " ++ "1234-1234" ++ " is failed"
            else "The Athena Query " ++ "1234-1234" ++ " is cancelled"⟩)⟩ :=
  (waitQueryToFinish_terminal_failure 0 (testEngine (MockAthenaClientWait "FAILED") 1 1)
    (MockAthenaClientWait "FAILED") "1234-1234" "FAILED" [] none rfl (Or.inl rfl) rfl).1

/-- Claim C3 fails on the code: while the status is QUEUED the loop neither adds
to `runtime` nor sleeps nor times out.  Against a client that always reports
QUEUED, whatever the interval and timeout, after any number `fuel` of turns the
loop has made `fuel` status calls and nothing else, `runtime` is still `0`, and
the loop is still running. -/
theorem waitLoop_queued_never_times_out (maxInterval maxTimeout : Int) (i : String)
    (fuel : Nat) :
    waitLoop (testEngine (MockAthenaClientWait QueryExecutionStateQueued) maxInterval maxTimeout)
        i fuel 0 [] =
      (0, ⟨List.replicate fuel (polled i none (some QueryExecutionStateQueued)), .running⟩) := by
  have key : ∀ (n : Nat) (r : Int) (h : List Event),
      waitLoop (testEngine (MockAthenaClientWait QueryExecutionStateQueued) maxInterval
          maxTimeout) i n r h =
        (r, ⟨h ++ List.replicate n (polled i none (some QueryExecutionStateQueued)),
          .running⟩) := by
    intro n
    induction n with
    | zero => intro r h; simp [waitLoop]
    | succ n ih =>
      intro r h
      rw [@waitLoop_other (testEngine (MockAthenaClientWait QueryExecutionStateQueued)
          maxInterval maxTimeout) (MockAthenaClientWait QueryExecutionStateQueued) i h
          none (some QueryExecutionStateQueued) n r rfl rfl
          (by decide) (by decide) (by decide) (by decide), ih]
      simp [List.replicate_succ]
  simpa using key fuel 0 []

/-- C4: when every status call for `i` reports RUNNING and `k` is the least
positive integer with `k * MaxInterval > MaxTimeout` (the interval and that
multiple in the range of `int`), `waitQueryToFinish` returns the timeout error
after exactly `k` status calls and `k - 1` sleeps and nothing else, whatever the
surplus of fuel; with `MaxTimeout < MaxInterval` that is one status call and no
sleep, and with `MaxInterval = MaxTimeout = 1` two status calls and one sleep. -/
theorem waitQueryToFinish_running_timeout (c : AthenaEngine) (api : AthenaAPI) (i : String)
    (h : List Event) (hc : c.athena = some api)
    (hrun : ∀ h1 : List Event, ∃ qid, api.GetQueryExecution h1 { QueryExecutionId := some i } =
      (some (statusOutput qid (some QueryExecutionStateRunning)), none)) :
    (∀ k : Nat, 1 ≤ k → (k : Int) * c.MaxInterval > c.MaxTimeout →
      (∀ j : Nat, 1 ≤ j → j < k → (j : Int) * c.MaxInterval ≤ c.MaxTimeout) →
      -2 ^ 63 ≤ c.MaxInterval → (k : Int) * c.MaxInterval < 2 ^ 63 →
      ∀ fuel : Nat, k ≤ fuel →
        ∃ t, waitQueryToFinish fuel c i h =
            ⟨h ++ t, .returned (some ⟨"The Athena Query " ++ i ++ " is timeout"⟩)⟩ ∧
          statusCalls t = k ∧ sleeps t = k - 1 ∧ t.length = 2 * k - 1) ∧
    (c.MaxTimeout < c.MaxInterval → -2 ^ 63 ≤ c.MaxInterval → c.MaxInterval < 2 ^ 63 →
      ∀ fuel : Nat, 1 ≤ fuel →
        ∃ t, waitQueryToFinish fuel c i h =
            ⟨h ++ t, .returned (some ⟨"The Athena Query " ++ i ++ " is timeout"⟩)⟩ ∧
          statusCalls t = 1 ∧ sleeps t = 0 ∧ t.length = 1) ∧
    (c.MaxInterval = 1 → c.MaxTimeout = 1 →
      ∀ fuel : Nat, 2 ≤ fuel →
        ∃ t, waitQueryToFinish fuel c i h =
            ⟨h ++ t, .returned (some ⟨"The Athena Query " ++ i ++ " is timeout"⟩)⟩ ∧
          statusCalls t = 2 ∧ sleeps t = 1 ∧ t.length = 3) := by
  have gen : ∀ k : Nat, 1 ≤ k → (k : Int) * c.MaxInterval > c.MaxTimeout →
      (∀ j : Nat, 1 ≤ j → j < k → (j : Int) * c.MaxInterval ≤ c.MaxTimeout) →
      -2 ^ 63 ≤ c.MaxInterval → (k : Int) * c.MaxInterval < 2 ^ 63 →
      ∀ fuel : Nat, k ≤ fuel →
        ∃ t, waitQueryToFinish fuel c i h =
            ⟨h ++ t, .returned (some ⟨"The Athena Query " ++ i ++ " is timeout"⟩)⟩ ∧
          statusCalls t = k ∧ sleeps t = k - 1 ∧ t.length = 2 * k - 1 := by
    intro k hk hgt hleast hlo hhi fuel hfuel
    obtain ⟨t, ht, hs, hsl, hlen⟩ :=
      waitLoop_running_steps hc hrun hgt hleast
        (fun j h1 hj => multiples_in_range hgt hleast hlo hhi j h1 hj)
        (k - 1) 0 (by omega) fuel h (by omega)
    refine ⟨t, ?_, by omega, by omega, by omega⟩
    simp only [waitQueryToFinish, hc]
    simp at ht
    rw [ht]
  refine ⟨gen, ?_, ?_⟩
  · intro hlt hlo hhi fuel hfuel
    exact gen 1 (le_refl 1) (by simpa using hlt) (fun j h1 hj => by omega) hlo
      (by simpa using hhi) fuel hfuel
  · intro hmi hmt fuel hfuel
    refine gen 2 (by omega) (by rw [hmi, hmt]; decide) (fun j h1 hj => ?_) (by rw [hmi]; decide)
      (by rw [hmi]; decide) fuel hfuel
    have : j = 1 := by omega
    subst this
    rw [hmi, hmt]
    decide

theorem waitQueryToFinish_running_timeout_witness :
    ∃ t, waitQueryToFinish 2 (testEngine (MockAthenaClientWait "RUNNING") 1 1) "1234-1234" [] =
        ⟨[] ++ t, .returned (some ⟨"The Athena Query " ++ "1234-1234" ++ " is timeout"⟩)⟩ ∧
      statusCalls t = 2 ∧ sleeps t = 1 ∧ t.length = 3 :=
  (waitQueryToFinish_running_timeout (testEngine (MockAthenaClientWait "RUNNING") 1 1)
    (MockAthenaClientWait "RUNNING") "1234-1234" [] rfl (fun _ => ⟨none, rfl⟩)).2.2
    rfl rfl 2 (le_refl 2)

/-- C5: for every request with `QueryOpt = "startQuery"` and every client whose
submit succeeds with output `o`, `Exec` returns the response whose `QueryID` is
exactly the id in `o`, with empty `QueryStatus` and nil `Columns` and `Rows`,
and no error, after exactly one submit call, which carries the request's SQL,
its `DataBase` and the engine's `OutputLocation`, and no status or fetch call. -/
theorem Exec_startQuery (fuel : Nat) (c : AthenaEngine) (api : AthenaAPI) (p : RequestParam)
    (h : List Event) (o : StartQueryExecutionOutput)
    (hc : c.athena = some api) (hopt : p.QueryOpt = QueryOptStart)
    (hsub : api.StartQueryExecution h
        { QueryString := some p.SQL
          QueryExecutionContext := some { Database := some p.DataBase }
          ResultConfiguration := some { OutputLocation := some c.OutputLocation } } =
      (some o, none)) :
    Exec fuel c (some p) h =
      ⟨h ++ [.startQuery
              { QueryString := some p.SQL
                QueryExecutionContext := some { Database := some p.DataBase }
                ResultConfiguration := some { OutputLocation := some c.OutputLocation } }
              (some o) none],
        .returned (some { QueryID := StringValue o.QueryExecutionId, QueryStatus := "",
                          Columns := none, Rows := none }, none)⟩ := by
  have hs := ExecuteQuery_ok hc hsub
  simp only [Exec, if_pos hopt, hs]
  rfl

theorem Exec_startQuery_witness :
    Exec 0 (testEngine MockAthenaClient 3 15) (some testStartQueryParam) [] =
      ⟨[] ++ [.startQuery
              { QueryString := some "SELECT * FROM viewership"
                QueryExecutionContext := some { Database := some "viewership" }
                ResultConfiguration := some { OutputLocation := some "" } }
              (some { QueryExecutionId := some "12345-12345" }) none],
        .returned (some { QueryID := "12345-12345", QueryStatus := "",
                          Columns := none, Rows := none }, none)⟩ :=
  Exec_startQuery 0 (testEngine MockAthenaClient 3 15) MockAthenaClient testStartQueryParam []
    { QueryExecutionId := some "12345-12345" } rfl rfl rfl

/-- C6: for every request with `QueryOpt = "queryStatus"` and `QueryID = i`, and
every state the client's status call reports for `i`, `Exec` returns the
response with `QueryID = i`, that state as `QueryStatus`, nil `Columns` and
`Rows`, and no error, after exactly one status call for `i` and no submit or
fetch call. -/
theorem Exec_queryStatus (fuel : Nat) (c : AthenaEngine) (api : AthenaAPI) (p : RequestParam)
    (h : List Event) (qid sp : Option String)
    (hc : c.athena = some api) (hopt : p.QueryOpt = QueryOptStatus)
    (hst : api.GetQueryExecution h { QueryExecutionId := some p.QueryID } =
      (some (statusOutput qid sp), none)) :
    Exec fuel c (some p) h =
      ⟨h ++ [.getExecution { QueryExecutionId := some p.QueryID }
              (some (statusOutput qid sp)) none],
        .returned (some { QueryID := p.QueryID, QueryStatus := StringValue sp,
                          Columns := none, Rows := none }, none)⟩ := by
  have hne : ¬ p.QueryOpt = QueryOptStart := by rw [hopt]; decide
  have hs := CheckStatusByQueryID_ok hc hst
  simp only [Exec, if_neg hne, if_pos hopt, hs]
  rfl

theorem Exec_queryStatus_witness :
    Exec 0 (testEngine MockAthenaClient 0 0) (some testCheckStatusParam) [] =
      ⟨[] ++ [.getExecution { QueryExecutionId := some "12345-12345" }
              (some (statusOutput none (some "SUCCEEDED"))) none],
        .returned (some { QueryID := "12345-12345", QueryStatus := "SUCCEEDED",
                          Columns := none, Rows := none }, none)⟩ :=
  Exec_queryStatus 0 (testEngine MockAthenaClient 0 0) MockAthenaClient testCheckStatusParam []
    none (some "SUCCEEDED") rfl rfl rfl

/-- C7: a failed client call ends `Exec` with that call's error and a nil
response, and nothing follows it.  In every run, for every client and request:
a client call in the trace that was answered with error `e` is the last event
and `Exec` has returned `(nil, e)`.  In particular a failed submit (with
"startQuery" or "queryResult") is the only event; a failed status call with
"queryStatus" is the only event; and a failed fetch after submit and a status
of SUCCEEDED is followed by no second fetch. -/
theorem Exec_client_error_propagates (fuel : Nat) (c : AthenaEngine) (api : AthenaAPI)
    (h : List Event) (hc : c.athena = some api) :
    (∀ (param : Option RequestParam) (t pre post : List Event) (ev : Event) (e : GoError),
      (Exec fuel c param h).trace = h ++ t → t = pre ++ ev :: post → ev.err = some e →
        post = [] ∧ (Exec fuel c param h).res = .returned (none, some e)) ∧
    (∀ (p : RequestParam) (o : Option StartQueryExecutionOutput) (e : GoError),
      p.QueryOpt = QueryOptStart ∨ p.QueryOpt = QueryOptResult →
      api.StartQueryExecution h (queryInput c p) = (o, some e) →
        Exec fuel c (some p) h =
          ⟨h ++ [.startQuery (queryInput c p) o (some e)], .returned (none, some e)⟩) ∧
    (∀ (p : RequestParam) (o : Option GetQueryExecutionOutput) (e : GoError),
      p.QueryOpt = QueryOptStatus →
      api.GetQueryExecution h { QueryExecutionId := some p.QueryID } = (o, some e) →
        Exec fuel c (some p) h =
          ⟨h ++ [.getExecution { QueryExecutionId := some p.QueryID } o (some e)],
            .returned (none, some e)⟩) ∧
    (∀ (p : RequestParam) (so : StartQueryExecutionOutput) (qid : Option String)
        (o : Option GetQueryResultsOutput) (e : GoError),
      p.QueryOpt = QueryOptResult →
      api.StartQueryExecution h (queryInput c p) = (some so, none) →
      api.GetQueryExecution (h ++ [submitted c p so])
          { QueryExecutionId := some (StringValue so.QueryExecutionId) } =
        (some (statusOutput qid (some QueryExecutionStateSucceeded)), none) →
      api.GetQueryResults
          (h ++ [submitted c p so,
            polled (StringValue so.QueryExecutionId) qid (some QueryExecutionStateSucceeded)])
          { QueryExecutionId := some (StringValue so.QueryExecutionId) } = (o, some e) →
        Exec (fuel + 1) c (some p) h =
          ⟨h ++ [submitted c p so,
              polled (StringValue so.QueryExecutionId) qid (some QueryExecutionStateSucceeded),
              .getResults { QueryExecutionId := some (StringValue so.QueryExecutionId) } o
                (some e)],
            .returned (none, some e)⟩) := by
  refine ⟨?_, ?_, ?_, ?_⟩
  · intro param t pre post ev e htr ht herr
    have hE := Exec_errLast fuel c param h
    rw [htr] at hE
    exact ErrLast_elim hE ht herr
  · intro p o e hopt hsub
    have hs := ExecuteQuery_err hc hsub
    rcases hopt with hopt | hopt
    · simp only [Exec, if_pos hopt, hs]
    · rw [Exec_of_result _ _ _ hopt]
      simp only [QueryResult, hs]
  · intro p o e hopt hst
    have hne : ¬ p.QueryOpt = QueryOptStart := by rw [hopt]; decide
    have hs := CheckStatusByQueryID_err hc hst
    simp only [Exec, if_neg hne, if_pos hopt, hs]
  · intro p so qid o e hopt hsub hst hf
    have hw := waitLoop_succeeded fuel 0 hc hst
    have hf2 := @getResultByQueryID_err c api (StringValue so.QueryExecutionId)
      (h ++ [submitted c p so] ++
        [polled (StringValue so.QueryExecutionId) qid (some QueryExecutionStateSucceeded)])
      o e hc (by simpa using hf)
    rw [Exec_of_result _ _ _ hopt]
    simp only [QueryResult, ExecuteQuery_ok hc hsub, waitQueryToFinish, hc, hw, hf2]
    simp

theorem Exec_client_error_propagates_witness :
    Exec 0 (testEngine MockAthenaClientFail 0 0) (some testStartQueryParam) [] =
      ⟨[] ++ [.startQuery (queryInput (testEngine MockAthenaClientFail 0 0) testStartQueryParam)
                none (some ⟨"StartQueryExecution mock error"⟩)],
        .returned (none, some ⟨"StartQueryExecution mock error"⟩)⟩ :=
  (Exec_client_error_propagates 0 (testEngine MockAthenaClientFail 0 0) MockAthenaClientFail []
    rfl).2.1 testStartQueryParam none ⟨"StartQueryExecution mock error"⟩ (Or.inl rfl) rfl

/-- C9: `Exec` with a nil request returns a nil response and a nil error and
makes no call on the client, for every engine, also one whose client is nil. -/
theorem Exec_nil_request (fuel : Nat) (c : AthenaEngine) (h : List Event) :
    Exec fuel c none h = ⟨h, .returned (none, none)⟩ ∧
      Exec fuel { c with athena := none } none h = ⟨h, .returned (none, none)⟩ := by
  constructor <;> rfl

/-- C10: `setupAthenaSession` returns an error exactly when the config is nil or
its `Role` and `Region` are both empty, and so does `GetInstance`, which then
returns no engine; when session creation does not fail, every other config
(only a region, only a role, or both) makes both succeed with a client that is
not nil, and the engine `GetInstance` returns has the config's `OutputLocation`,
`MaxInterval` and `MaxTimeout`. -/
theorem construction_fails_iff_insufficient (sdk : Sdk) (c : AthenaEngine)
    (config : Option Config) :
    ((∃ c1 e, setupAthenaSession sdk c config = .returned (c1, some e)) ↔
      (config = none ∨ ∃ cfg, config = some cfg ∧ cfg.Role = "" ∧ cfg.Region = "")) ∧
    ((∃ r e, GetInstance sdk config = .returned (r, some e)) ↔
      (config = none ∨ ∃ cfg, config = some cfg ∧ cfg.Role = "" ∧ cfg.Region = "")) ∧
    (∀ r e, GetInstance sdk config = .returned (r, some e) → r = none) ∧
    (SessionsSucceed sdk → ∀ cfg, config = some cfg → cfg.Role ≠ "" ∨ cfg.Region ≠ "" →
      ∃ a, setupAthenaSession sdk c config = .returned ({ c with athena := some a }, none) ∧
        GetInstance sdk config =
          .returned (some { athena := some a, db := "", OutputLocation := cfg.OutputLocation,
                            MaxInterval := cfg.MaxInterval, MaxTimeout := cfg.MaxTimeout,
                            pollFrequency := 0 }, none)) := by
  cases config with
  | none =>
    refine ⟨?_, ?_, ?_, ?_⟩
    · simp [setupAthenaSession]
    · simp [GetInstance]
    · intro r e he
      simp only [GetInstance, Res.returned.injEq, Prod.mk.injEq] at he
      exact he.1.symm
    · intro _ cfg hcfg
      cases hcfg
  | some cfg =>
    have hget : ∀ r e, GetInstance sdk (some cfg) = .returned (r, some e) →
        r = none ∧ ∃ c1, setupAthenaSession sdk
          { athena := none, db := "", OutputLocation := cfg.OutputLocation,
            MaxInterval := cfg.MaxInterval, MaxTimeout := cfg.MaxTimeout, pollFrequency := 0 }
          (some cfg) = .returned (c1, some e) := by
      intro r e he
      simp only [GetInstance] at he
      rcases hq : setupAthenaSession sdk
          { athena := none, db := "", OutputLocation := cfg.OutputLocation,
            MaxInterval := cfg.MaxInterval, MaxTimeout := cfg.MaxTimeout, pollFrequency := 0 }
          (some cfg) with ⟨c1, e1⟩ | _ | _
      · rw [hq] at he
        cases e1 with
        | none => simp at he
        | some e1 =>
          simp only [Res.returned.injEq, Prod.mk.injEq, Option.some.injEq] at he
          exact ⟨he.1.symm, c1, by rw [he.2]⟩
      · rw [hq] at he; cases he
      · rw [hq] at he; cases he
    refine ⟨?_, ?_, ?_, ?_⟩
    · rw [setupAthenaSession_error_iff]
      simp
    · constructor
      · rintro ⟨r, e, he⟩
        obtain ⟨_, c1, hc1⟩ := hget r e he
        have := (setupAthenaSession_error_iff sdk _ cfg).mp ⟨c1, e, hc1⟩
        exact Or.inr ⟨cfg, rfl, this⟩
      · rintro (hn | ⟨cfg1, hc, hr, hg⟩)
        · cases hn
        · cases hc
          obtain ⟨c1, e, he⟩ := (setupAthenaSession_error_iff sdk
            { athena := none, db := "", OutputLocation := cfg.OutputLocation,
              MaxInterval := cfg.MaxInterval, MaxTimeout := cfg.MaxTimeout, pollFrequency := 0 }
            cfg).mpr ⟨hr, hg⟩
          exact ⟨none, e, by simp only [GetInstance, he]⟩
    · intro r e he
      exact (hget r e he).1
    · intro hS cfg1 hc hne
      cases hc
      obtain ⟨a, ha⟩ := setupAthenaSession_ok sdk cfg hS hne
      exact ⟨a, ha c, by simp only [GetInstance, ha]⟩

theorem construction_fails_iff_insufficient_witness :
    ∃ a, setupAthenaSession testSdk (testEngine MockAthenaClientFail 0 0) (some testConfig) =
        .returned ({ testEngine MockAthenaClientFail 0 0 with athena := some a }, none) ∧
      GetInstance testSdk (some testConfig) =
        .returned (some { athena := some a, db := "", OutputLocation := testConfig.OutputLocation,
                          MaxInterval := testConfig.MaxInterval,
                          MaxTimeout := testConfig.MaxTimeout, pollFrequency := 0 }, none) :=
  (construction_fails_iff_insufficient testSdk (testEngine MockAthenaClientFail 0 0)
    (some testConfig)).2.2.2 (fun _ => ⟨⟨0⟩, rfl⟩) testConfig rfl (Or.inr (by decide))

/-! ## Result assembly -/

/-- The private and the exported fetch method are the same function. -/
theorem getResultByQueryID_eq (c : AthenaEngine) (i : String) (h : List Event) :
    getResultByQueryID c i h = GetQueryResultByQueryID c i h := rfl

/-- C11: result assembly is the identity on the client's payload.  For every
fetch response without error that carries the column slice `cs` and the row
slice `rs`, `GetQueryResultByQueryID` and `getResultByQueryID` return exactly
`(cs, rs, nil)` after that one fetch call, and the two methods are the same
function on every input. -/
theorem GetQueryResultByQueryID_identity (c : AthenaEngine) (api : AthenaAPI) (i : String)
    (h : List Event) (cs : Slice (Option ColumnInfo)) (rs : Slice (Option Row))
    (hc : c.athena = some api)
    (hf : api.GetQueryResults h { QueryExecutionId := some i } =
      (some { ResultSet := some { ResultSetMetadata := some { ColumnInfo := cs }, Rows := rs } },
        none)) :
    GetQueryResultByQueryID c i h =
        ⟨h ++ [.getResults { QueryExecutionId := some i }
            (some { ResultSet := some { ResultSetMetadata := some { ColumnInfo := cs },
                                        Rows := rs } }) none],
          .returned (cs, rs, none)⟩ ∧
      getResultByQueryID c i h =
        ⟨h ++ [.getResults { QueryExecutionId := some i }
            (some { ResultSet := some { ResultSetMetadata := some { ColumnInfo := cs },
                                        Rows := rs } }) none],
          .returned (cs, rs, none)⟩ ∧
      ∀ (c1 : AthenaEngine) (i1 : String) (h1 : List Event),
        getResultByQueryID c1 i1 h1 = GetQueryResultByQueryID c1 i1 h1 := by
  have hg := getResultByQueryID_ok hc hf
  refine ⟨?_, ?_, fun c1 i1 h1 => getResultByQueryID_eq c1 i1 h1⟩
  · rw [← getResultByQueryID_eq, hg]
    rfl
  · rw [hg]
    rfl

theorem GetQueryResultByQueryID_identity_witness :
    GetQueryResultByQueryID (testEngine MockAthenaClient 0 0) "1234-1234" [] =
      ⟨[] ++ [.getResults { QueryExecutionId := some "1234-1234" }
          (some { ResultSet := some { ResultSetMetadata := some { ColumnInfo := testColumns },
                                      Rows := testRows } }) none],
        .returned (testColumns, testRows, none)⟩ :=
  (GetQueryResultByQueryID_identity (testEngine MockAthenaClient 0 0) MockAthenaClient
    "1234-1234" [] testColumns testRows rfl rfl).1

/-- Claim C12 fails on the code: a fetch response without error whose
`ResultSet` is absent, or whose `ResultSetMetadata` is absent, makes both fetch
methods dereference nil: they panic instead of returning a result. -/
theorem GetQueryResultByQueryID_faults_on_absent_part :
    (GetQueryResultByQueryID (testEngine noResultSetClient 0 0) "1234-1234" []).res = .panicked ∧
    (getResultByQueryID (testEngine noResultSetClient 0 0) "1234-1234" []).res = .panicked ∧
    (GetQueryResultByQueryID (testEngine noMetadataClient 0 0) "1234-1234" []).res = .panicked ∧
    (getResultByQueryID (testEngine noMetadataClient 0 0) "1234-1234" []).res = .panicked := by
  refine ⟨rfl, rfl, rfl, rfl⟩

/-- C12, amended: for every fetch response without error whose `ResultSet` and
`ResultSetMetadata` are present, `GetQueryResultByQueryID` and
`getResultByQueryID` return a result and no error; and they return an error
exactly when the fetch call itself returned one, namely that error with nil
columns and rows. -/
theorem GetQueryResultByQueryID_total_on_present (c : AthenaEngine) (api : AthenaAPI)
    (i : String) (h : List Event) (hc : c.athena = some api) :
    (∀ (out : GetQueryResultsOutput) (rset : ResultSet) (md : ResultSetMetadata),
      api.GetQueryResults h { QueryExecutionId := some i } = (some out, none) →
      out.ResultSet = some rset → rset.ResultSetMetadata = some md →
        (GetQueryResultByQueryID c i h).res = .returned (md.ColumnInfo, rset.Rows, none) ∧
        (getResultByQueryID c i h).res = .returned (md.ColumnInfo, rset.Rows, none)) ∧
    (∀ (cols : Slice (Option ColumnInfo)) (rows : Slice (Option Row)) (e : GoError),
      (GetQueryResultByQueryID c i h).res = .returned (cols, rows, some e) ∨
        (getResultByQueryID c i h).res = .returned (cols, rows, some e) →
      (api.GetQueryResults h { QueryExecutionId := some i }).2 = some e ∧
        cols = none ∧ rows = none) ∧
    (∀ (o : Option GetQueryResultsOutput) (e : GoError),
      api.GetQueryResults h { QueryExecutionId := some i } = (o, some e) →
        (GetQueryResultByQueryID c i h).res = .returned (none, none, some e) ∧
        (getResultByQueryID c i h).res = .returned (none, none, some e)) := by
  refine ⟨?_, ?_, ?_⟩
  · intro out rset md hf hrs hmd
    have : (getResultByQueryID c i h).res = .returned (md.ColumnInfo, rset.Rows, none) := by
      simp [getResultByQueryID, hc, hf, hrs, hmd]
    exact ⟨by rw [← getResultByQueryID_eq]; exact this, this⟩
  · intro cols rows e hres
    have hres1 : (getResultByQueryID c i h).res = .returned (cols, rows, some e) := by
      rcases hres with h1 | h1
      · rw [getResultByQueryID_eq]; exact h1
      · exact h1
    rcases hr : api.GetQueryResults h { QueryExecutionId := some i } with ⟨o, e1⟩
    cases e1 with
    | some err =>
      rw [getResultByQueryID_err hc hr] at hres1
      simp only [Res.returned.injEq, Prod.mk.injEq, Option.some.injEq] at hres1
      exact ⟨by rw [hres1.2.2], hres1.1.symm, hres1.2.1.symm⟩
    | none =>
      exfalso
      cases o with
      | none => simp [getResultByQueryID, hc, hr] at hres1
      | some out =>
        rcases out with ⟨rset⟩
        cases rset with
        | none => simp [getResultByQueryID, hc, hr] at hres1
        | some rset =>
          rcases rset with ⟨md, rws⟩
          cases md with
          | none => simp [getResultByQueryID, hc, hr] at hres1
          | some md => simp [getResultByQueryID, hc, hr] at hres1
  · intro o e hf
    have := getResultByQueryID_err hc hf
    exact ⟨by rw [← getResultByQueryID_eq, this], by rw [this]⟩

theorem GetQueryResultByQueryID_total_on_present_witness :
    (GetQueryResultByQueryID (testEngine MockAthenaClientFail 0 0) "1234-1234" []).res =
        .returned (none, none, some ⟨"GetQueryResults mock error"⟩) ∧
      (getResultByQueryID (testEngine MockAthenaClientFail 0 0) "1234-1234" []).res =
        .returned (none, none, some ⟨"GetQueryResults mock error"⟩) :=
  (GetQueryResultByQueryID_total_on_present (testEngine MockAthenaClientFail 0 0)
    MockAthenaClientFail "1234-1234" [] rfl).2.2 none ⟨"GetQueryResults mock error"⟩ rfl

/-- C16: for every request whose `QueryOpt` is none of "startQuery",
"queryStatus" and "queryResult" (the empty string included), `Exec` returns a
nil response and a nil error and makes no call on the client: the same outcome
as for a nil request. -/
theorem Exec_unrecognised_mode (fuel : Nat) (c : AthenaEngine) (p : RequestParam)
    (h : List Event) (h1 : p.QueryOpt ≠ QueryOptStart) (h2 : p.QueryOpt ≠ QueryOptStatus)
    (h3 : p.QueryOpt ≠ QueryOptResult) :
    Exec fuel c (some p) h = ⟨h, .returned (none, none)⟩ ∧
      Exec fuel c (some p) h = Exec fuel c none h := by
  have : Exec fuel c (some p) h = ⟨h, .returned (none, none)⟩ := by
    simp only [Exec, if_neg h1, if_neg h2, if_neg h3]
  exact ⟨this, by rw [this]; rfl⟩

theorem Exec_unrecognised_mode_witness :
    Exec 5 (testEngine MockAthenaClient 3 15) (some testEmptyOptParam) [] =
        ⟨[], .returned (none, none)⟩ ∧
      Exec 5 (testEngine MockAthenaClient 3 15) (some testEmptyOptParam) [] =
        Exec 5 (testEngine MockAthenaClient 3 15) none [] :=
  Exec_unrecognised_mode 5 (testEngine MockAthenaClient 3 15) testEmptyOptParam []
    (by decide) (by decide) (by decide)

/-! ## The shape of a run of `QueryResult` -/

theorem polled_isPollFor (i : String) (qid sp : Option String) :
    (polled i qid sp).isPollFor i = true := by
  simp [polled, Event.isPollFor]

theorem PollTrace_cons {i : String} {ev : Event} {w : List Event} {res : Res (Option GoError)}
    (hev : ev.isPollFor i = true) (hw : PollTrace i w res) : PollTrace i (ev :: w) res := by
  refine ⟨?_, ?_⟩
  · intro e he
    rcases List.mem_cons.mp he with h1 | h1
    · rw [h1]; exact hev
    · exact hw.1 e h1
  · intro hres
    obtain ⟨w0, qid, sp, hw0, hsp⟩ := hw.2 hres
    exact ⟨ev :: w0, qid, sp, by rw [hw0]; rfl, hsp⟩

theorem PollTrace_single_fail {i : String} {ev : Event} {res : Res (Option GoError)}
    (hev : ev.isPollFor i = true) (hres : res ≠ .returned none) : PollTrace i [ev] res := by
  refine ⟨?_, fun h => absurd h hres⟩
  intro e he
  simp at he
  rw [he]; exact hev

theorem PollTrace_nil_fail {i : String} {res : Res (Option GoError)}
    (hres : res ≠ .returned none) : PollTrace i [] res :=
  ⟨fun e he => by simp at he, fun h => absurd h hres⟩

/-- The trace of one status check with a client present: exactly the call. -/
theorem CheckStatusByQueryID_trace {c : AthenaEngine} {api : AthenaAPI} (i : String)
    (h : List Event) (hc : c.athena = some api) :
    (CheckStatusByQueryID c i h).trace =
      h ++ [.getExecution { QueryExecutionId := some i }
        (api.GetQueryExecution h { QueryExecutionId := some i }).1
        (api.GetQueryExecution h { QueryExecutionId := some i }).2] := by
  rcases hr : api.GetQueryExecution h { QueryExecutionId := some i } with ⟨o, e⟩
  cases e with
  | some err => rw [CheckStatusByQueryID_err hc hr]
  | none =>
    cases o with
    | none => simp only [CheckStatusByQueryID, hc, hr]
    | some out =>
      rcases out with ⟨qe⟩
      cases qe with
      | none => simp only [CheckStatusByQueryID, hc, hr]
      | some qe =>
        rcases qe with ⟨qid, st⟩
        cases st with
        | none => simp only [CheckStatusByQueryID, hc, hr]
        | some st => simp only [CheckStatusByQueryID, hc, hr]

/-- A status check that returned a state without error got a response with
execution and status present, and the state is the one in it. -/
theorem CheckStatusByQueryID_returned {c : AthenaEngine} {api : AthenaAPI} {i s : String}
    {h h1 : List Event} (hc : c.athena = some api)
    (hR : CheckStatusByQueryID c i h = ⟨h1, .returned (s, none)⟩) :
    ∃ qid sp, api.GetQueryExecution h { QueryExecutionId := some i } =
        (some (statusOutput qid sp), none) ∧
      h1 = h ++ [polled i qid sp] ∧ s = StringValue sp := by
  rcases hr : api.GetQueryExecution h { QueryExecutionId := some i } with ⟨o, e⟩
  cases e with
  | some err =>
    rw [CheckStatusByQueryID_err hc hr] at hR
    simp at hR
  | none =>
    cases o with
    | none => simp [CheckStatusByQueryID, hc, hr] at hR
    | some out =>
      rcases out with ⟨qe⟩
      cases qe with
      | none => simp [CheckStatusByQueryID, hc, hr] at hR
      | some qe =>
        rcases qe with ⟨qid, st⟩
        cases st with
        | none => simp [CheckStatusByQueryID, hc, hr] at hR
        | some st =>
          rcases st with ⟨sp⟩
          have hr2 : api.GetQueryExecution h { QueryExecutionId := some i } =
              (some (statusOutput qid sp), none) := by rw [hr]; rfl
          rw [CheckStatusByQueryID_ok hc hr2] at hR
          simp only [Run.mk.injEq, Res.returned.injEq, Prod.mk.injEq, and_true] at hR
          exact ⟨qid, sp, rfl, hR.1.symm, hR.2.symm⟩

/-- The events the poll loop adds. -/
theorem waitLoop_polls {c : AthenaEngine} {api : AthenaAPI} (i : String)
    (hc : c.athena = some api) :
    ∀ (fuel : Nat) (runtime : Int) (h : List Event),
      ∃ w, (waitLoop c i fuel runtime h).2.trace = h ++ w ∧
        PollTrace i w (waitLoop c i fuel runtime h).2.res := by
  intro fuel
  induction fuel with
  | zero =>
    intro runtime h
    exact ⟨[], by simp [waitLoop], PollTrace_nil_fail (by simp [waitLoop])⟩
  | succ n ih =>
    intro runtime h
    have htr := CheckStatusByQueryID_trace i h hc
    have hev : (Event.getExecution { QueryExecutionId := some i }
        (api.GetQueryExecution h { QueryExecutionId := some i }).1
        (api.GetQueryExecution h { QueryExecutionId := some i }).2).isPollFor i = true := by
      simp [Event.isPollFor]
    rcases hR : CheckStatusByQueryID c i h with ⟨h1, res⟩
    rw [hR] at htr
    simp only at htr
    cases res with
    | panicked =>
      simp only [waitLoop, hR]
      exact ⟨_, htr, PollTrace_single_fail hev (by simp)⟩
    | running =>
      simp only [waitLoop, hR]
      exact ⟨_, htr, PollTrace_single_fail hev (by simp)⟩
    | returned v =>
      rcases v with ⟨s, e⟩
      cases e with
      | some err =>
        simp only [waitLoop, hR]
        exact ⟨_, htr, PollTrace_single_fail hev (by simp)⟩
      | none =>
        obtain ⟨qid, sp, _, hh1, hs⟩ := CheckStatusByQueryID_returned hc hR
        subst hh1
        simp only [waitLoop, hR]
        split_ifs with hf hcn hsu hru hto
        · exact ⟨_, rfl, PollTrace_single_fail (polled_isPollFor i qid sp) (by simp)⟩
        · exact ⟨_, rfl, PollTrace_single_fail (polled_isPollFor i qid sp) (by simp)⟩
        · exact ⟨_, rfl, ⟨fun e he => by
            simp at he
            rw [he]; exact polled_isPollFor i qid sp,
            fun _ => ⟨[], qid, sp, rfl, by rw [← hs]; exact hsu⟩⟩⟩
        · exact ⟨_, rfl, PollTrace_single_fail (polled_isPollFor i qid sp) (by simp)⟩
        · obtain ⟨w, hw, hp⟩ := ih (wrapInt (runtime + c.MaxInterval))
            (h ++ [polled i qid sp] ++ [Event.sleep 3])
          refine ⟨polled i qid sp :: Event.sleep 3 :: w, by rw [hw]; simp, ?_⟩
          exact PollTrace_cons (polled_isPollFor i qid sp) (PollTrace_cons rfl hp)
        · obtain ⟨w, hw, hp⟩ := ih runtime (h ++ [polled i qid sp])
          refine ⟨polled i qid sp :: w, by rw [hw]; simp, ?_⟩
          exact PollTrace_cons (polled_isPollFor i qid sp) hp

theorem waitQueryToFinish_polls {c : AthenaEngine} {api : AthenaAPI} (fuel : Nat) (i : String)
    (h : List Event) (hc : c.athena = some api) :
    ∃ w, (waitQueryToFinish fuel c i h).trace = h ++ w ∧
      PollTrace i w (waitQueryToFinish fuel c i h).res := by
  simp only [waitQueryToFinish, hc]
  exact waitLoop_polls i hc fuel 0 h

/-- The trace of one fetch with a client present: exactly the call. -/
theorem getResultByQueryID_trace {c : AthenaEngine} {api : AthenaAPI} (i : String)
    (h : List Event) (hc : c.athena = some api) :
    (getResultByQueryID c i h).trace =
      h ++ [.getResults { QueryExecutionId := some i }
        (api.GetQueryResults h { QueryExecutionId := some i }).1
        (api.GetQueryResults h { QueryExecutionId := some i }).2] := by
  rcases hr : api.GetQueryResults h { QueryExecutionId := some i } with ⟨o, e⟩
  cases e with
  | some err => rw [getResultByQueryID_err hc hr]
  | none =>
    cases o with
    | none => simp only [getResultByQueryID, hc, hr]
    | some out =>
      rcases out with ⟨rset⟩
      cases rset with
      | none => simp only [getResultByQueryID, hc, hr]
      | some rset =>
        rcases rset with ⟨md, rows⟩
        cases md with
        | none => simp only [getResultByQueryID, hc, hr]
        | some md => simp only [getResultByQueryID, hc, hr]

/-- Every run of `QueryResult` has one of three shapes: nothing happened and it
panicked (nil client); a submit call followed by status calls for the submitted
id and sleeps, without a response; or a successful submit, such polls and
sleeps, a status call reporting SUCCEEDED and then one fetch for the id. -/
theorem QueryResult_shape (fuel : Nat) (c : AthenaEngine) (p : RequestParam) (h : List Event) :
    ((QueryResult fuel c (some p) h).trace = h ∧
      (QueryResult fuel c (some p) h).res = .panicked) ∨
    (∃ out err w,
      (QueryResult fuel c (some p) h).trace = h ++ .startQuery (queryInput c p) out err :: w ∧
      (∀ ev ∈ w, ev.isPollFor (idOf out) = true) ∧
      ∀ r e, (QueryResult fuel c (some p) h).res ≠ .returned (some r, e)) ∨
    (∃ o w qid sp fo fe,
      (QueryResult fuel c (some p) h).trace =
        h ++ submitted c p o ::
          (w ++ [polled (StringValue o.QueryExecutionId) qid sp,
                 .getResults { QueryExecutionId := some (StringValue o.QueryExecutionId) } fo fe]) ∧
      (∀ ev ∈ w, ev.isPollFor (StringValue o.QueryExecutionId) = true) ∧
      StringValue sp = QueryExecutionStateSucceeded ∧
      ∀ r e, (QueryResult fuel c (some p) h).res = .returned (some r, e) →
        r.QueryID = StringValue o.QueryExecutionId ∧
        r.QueryStatus = QueryExecutionStateSucceeded ∧ e = none) := by
  cases hca : c.athena with
  | none =>
    left
    simp [QueryResult, ExecuteQuery, hca]
  | some api =>
    rcases hs : api.StartQueryExecution h (queryInput c p) with ⟨so, se⟩
    cases se with
    | some err =>
      right; left
      refine ⟨so, some err, [], ?_, fun ev he => by simp at he, ?_⟩
      · simp only [QueryResult, ExecuteQuery_err hca hs]
      · intro r e
        simp only [QueryResult, ExecuteQuery_err hca hs]
        simp
    | none =>
      cases so with
      | none =>
        right; left
        refine ⟨none, none, [], ?_, fun ev he => by simp at he, ?_⟩
        · simp only [QueryResult, ExecuteQuery, hca, hs]
        · intro r e
          simp only [QueryResult, ExecuteQuery, hca, hs]
          simp
      | some o =>
        have hE := ExecuteQuery_ok hca hs
        obtain ⟨w, hw, hpoll, hsucc⟩ :=
          waitQueryToFinish_polls fuel (StringValue o.QueryExecutionId)
            (h ++ [submitted c p o]) hca
        rcases hW : waitQueryToFinish fuel c (StringValue o.QueryExecutionId)
            (h ++ [submitted c p o]) with ⟨h2, res2⟩
        rw [hW] at hw hsucc
        simp only at hw hsucc
        subst hw
        have hnone : ∀ (res : Res (Option ResponseData × Option GoError)),
            (∀ r e, res ≠ .returned (some r, e)) →
            (QueryResult fuel c (some p) h) = ⟨h ++ [submitted c p o] ++ w, res⟩ →
            ∃ out err w1,
              (QueryResult fuel c (some p) h).trace =
                h ++ .startQuery (queryInput c p) out err :: w1 ∧
              (∀ ev ∈ w1, ev.isPollFor (idOf out) = true) ∧
              ∀ r e, (QueryResult fuel c (some p) h).res ≠ .returned (some r, e) := by
          intro res hres hq
          refine ⟨some o, none, w, ?_, hpoll, ?_⟩
          · rw [hq]; simp [submitted]
          · rw [hq]; exact hres
        cases res2 with
        | panicked =>
          right; left
          exact hnone .panicked (by simp) (by simp only [QueryResult, hE, hW])
        | running =>
          right; left
          exact hnone .running (by simp) (by simp only [QueryResult, hE, hW])
        | returned v2 =>
          cases v2 with
          | some err =>
            right; left
            exact hnone (.returned (none, some err)) (by simp)
              (by simp only [QueryResult, hE, hW])
          | none =>
            right; right
            obtain ⟨w0, qid, sp, hw0, hsp⟩ := hsucc rfl
            subst hw0
            have hG := getResultByQueryID_trace (StringValue o.QueryExecutionId)
              (h ++ [submitted c p o] ++ (w0 ++ [polled (StringValue o.QueryExecutionId) qid sp]))
              hca
            rcases hGr : getResultByQueryID c (StringValue o.QueryExecutionId)
              (h ++ [submitted c p o] ++ (w0 ++ [polled (StringValue o.QueryExecutionId) qid sp]))
              with ⟨h3, res3⟩
            rw [hGr] at hG
            simp only at hG
            refine ⟨o, w0, qid, sp,
              (api.GetQueryResults
                (h ++ [submitted c p o] ++
                  (w0 ++ [polled (StringValue o.QueryExecutionId) qid sp]))
                { QueryExecutionId := some (StringValue o.QueryExecutionId) }).1,
              (api.GetQueryResults
                (h ++ [submitted c p o] ++
                  (w0 ++ [polled (StringValue o.QueryExecutionId) qid sp]))
                { QueryExecutionId := some (StringValue o.QueryExecutionId) }).2,
              ?_, ?_, hsp, ?_⟩
            · have : (QueryResult fuel c (some p) h).trace = h3 := by
                simp only [QueryResult, hE, hW, hGr]
                cases res3 with
                | panicked => rfl
                | running => rfl
                | returned v3 =>
                  rcases v3 with ⟨cols, rows, e3⟩
                  cases e3 <;> rfl
              rw [this, hG]
              simp
            · intro ev hev
              exact hpoll ev (List.mem_append_left _ hev)
            · intro r e hres
              simp only [QueryResult, hE, hW, hGr] at hres
              cases res3 with
              | panicked => simp at hres
              | running => simp at hres
              | returned v3 =>
                rcases v3 with ⟨cols, rows, e3⟩
                cases e3 with
                | some err => simp at hres
                | none =>
                  simp only [Res.returned.injEq, Prod.mk.injEq, Option.some.injEq] at hres
                  rw [← hres.1]
                  exact ⟨rfl, rfl, hres.2.symm⟩

theorem isPollFor_addressedTo {i : String} {ev : Event} (h : ev.isPollFor i = true) :
    ev.addressedTo i = true := by
  cases ev <;> simp_all [Event.isPollFor, Event.addressedTo]

theorem isPollFor_not_isFetch {i : String} {ev : Event} (h : ev.isPollFor i = true) :
    ev.isFetch = false := by
  cases ev <;> simp_all [Event.isPollFor, Event.isFetch]

theorem submitCalls_of_addressedTo {i : String} {t : List Event}
    (h : ∀ ev ∈ t, ev.addressedTo i = true) : submitCalls t = 0 := by
  unfold submitCalls
  rw [List.countP_eq_zero]
  intro ev hev
  have := h ev hev
  cases ev <;> simp_all [Event.addressedTo]

theorem fetchCalls_of_isPollFor {i : String} {t : List Event}
    (h : ∀ ev ∈ t, ev.isPollFor i = true) : fetchCalls t = 0 := by
  unfold fetchCalls
  rw [List.countP_eq_zero]
  intro ev hev
  have := h ev hev
  cases ev <;> simp_all [Event.isPollFor]

/-- An event with a property none of the events before the last has is the last. -/
theorem eq_last_of_not_before {a pre post : List Event} {x ev : Event} {P : Event → Bool}
    (ha : ∀ e ∈ a, P e = false) (ht : a ++ [x] = pre ++ ev :: post) (hev : P ev = true) :
    post = [] ∧ pre = a ∧ ev = x := by
  rcases List.eq_nil_or_concat post with hp | ⟨post1, y, hp⟩
  · subst hp
    have hinj := List.append_inj' ht rfl
    exact ⟨rfl, hinj.1.symm, by simpa using hinj.2.symm⟩
  · subst hp
    have heq : a ++ [x] = (pre ++ ev :: post1) ++ [y] := by rw [ht]; simp
    have hinj := List.append_inj' heq rfl
    have hin : ev ∈ a := by rw [hinj.1]; simp
    have := ha ev hin
    rw [hev] at this
    cases this

/-- A submit that returned an id without error had a client and a response. -/
theorem ExecuteQuery_returned {c : AthenaEngine} {p : RequestParam} {h h1 : List Event}
    {i : String} (hE : ExecuteQuery c (some p) h = ⟨h1, .returned (i, none)⟩) :
    ∃ api o, c.athena = some api ∧ h1 = h ++ [submitted c p o] ∧
      i = StringValue o.QueryExecutionId := by
  cases hca : c.athena with
  | none => simp [ExecuteQuery, hca] at hE
  | some api =>
    rcases hs : api.StartQueryExecution h (queryInput c p) with ⟨so, se⟩
    cases se with
    | some err =>
      rw [ExecuteQuery_err hca hs] at hE
      simp at hE
    | none =>
      cases so with
      | none => simp [ExecuteQuery, hca, hs] at hE
      | some o =>
        rw [ExecuteQuery_ok hca hs] at hE
        simp only [Run.mk.injEq, Res.returned.injEq, Prod.mk.injEq, and_true] at hE
        exact ⟨api, o, rfl, hE.1.symm, hE.2.symm⟩

/-- In every mode, a response of `Exec` with columns or rows has status
SUCCEEDED. -/
theorem Exec_columns_only_succeeded (fuel : Nat) (c : AthenaEngine)
    (param : Option RequestParam) (h : List Event) (r : ResponseData) (e : Option GoError)
    (hres : (Exec fuel c param h).res = .returned (some r, e))
    (hcr : r.Columns ≠ none ∨ r.Rows ≠ none) :
    r.QueryStatus = QueryExecutionStateSucceeded := by
  cases param with
  | none => simp [Exec] at hres
  | some p =>
    by_cases ho1 : p.QueryOpt = QueryOptStart
    · exfalso
      simp only [Exec, if_pos ho1] at hres
      rcases hE : ExecuteQuery c (some p) h with ⟨h1, res⟩
      rw [hE] at hres
      cases res with
      | panicked => simp at hres
      | running => simp at hres
      | returned v =>
        rcases v with ⟨qid, e1⟩
        cases e1 with
        | some err => simp at hres
        | none =>
          simp only [Res.returned.injEq, Prod.mk.injEq, Option.some.injEq] at hres
          rw [← hres.1] at hcr
          simp at hcr
    · by_cases ho2 : p.QueryOpt = QueryOptStatus
      · exfalso
        simp only [Exec, if_neg ho1, if_pos ho2] at hres
        rcases hR : CheckStatusByQueryID c p.QueryID h with ⟨h1, res⟩
        rw [hR] at hres
        cases res with
        | panicked => simp at hres
        | running => simp at hres
        | returned v =>
          rcases v with ⟨st, e1⟩
          cases e1 with
          | some err => simp at hres
          | none =>
            simp only [Res.returned.injEq, Prod.mk.injEq, Option.some.injEq] at hres
            rw [← hres.1] at hcr
            simp at hcr
      · by_cases ho3 : p.QueryOpt = QueryOptResult
        · rw [Exec_of_result _ _ _ ho3] at hres
          rcases QueryResult_shape fuel c p h with ⟨_, hp⟩ | ⟨_, _, _, _, _, hno⟩ |
            ⟨o, w, qid, sp, fo, fe, _, _, _, hok⟩
          · rw [hp] at hres; cases hres
          · exact absurd hres (hno r e)
          · exact (hok r e hres).2.1
        · simp [Exec, if_neg ho1, if_neg ho2, if_neg ho3] at hres

/-- C13: in every run of `Exec` with "queryResult", for every client: at most
one submit call is made, and it comes first; every event after it is a status
call or a fetch call for exactly the execution id read from that submit's
response (not the request's own `QueryID`), or a sleep; and a response, when
there is one, carries that id as `QueryID`. -/
theorem QueryResult_single_execution_id (fuel : Nat) (c : AthenaEngine) (p : RequestParam)
    (h : List Event) (hopt : p.QueryOpt = QueryOptResult) :
    ∃ t, (Exec fuel c (some p) h).trace = h ++ t ∧ submitCalls t ≤ 1 ∧
      (t = [] ∨ ∃ out err rest, t = .startQuery (queryInput c p) out err :: rest ∧
        submitCalls rest = 0 ∧ ∀ ev ∈ rest, ev.addressedTo (idOf out) = true) ∧
      ∀ r e, (Exec fuel c (some p) h).res = .returned (some r, e) →
        ∃ o rest, t = .startQuery (queryInput c p) (some o) none :: rest ∧
          r.QueryID = StringValue o.QueryExecutionId := by
  rw [Exec_of_result _ _ _ hopt]
  rcases QueryResult_shape fuel c p h with ⟨htr, hp⟩ | ⟨out, err, w, htr, hw, hno⟩ |
    ⟨o, w, qid, sp, fo, fe, htr, hw, _, hok⟩
  · refine ⟨[], by rw [htr]; simp, by simp [submitCalls], Or.inl rfl, ?_⟩
    intro r e hres
    rw [hp] at hres
    cases hres
  · have haddr : ∀ ev ∈ w, ev.addressedTo (idOf out) = true :=
      fun ev hev => isPollFor_addressedTo (hw ev hev)
    have h0 := submitCalls_of_addressedTo haddr
    refine ⟨_, htr, ?_, Or.inr ⟨out, err, w, rfl, h0, haddr⟩, ?_⟩
    · have : submitCalls (Event.startQuery (queryInput c p) out err :: w) =
          submitCalls w + 1 := by
        simp [submitCalls]
      omega
    · intro r e hres
      exact absurd hres (hno r e)
  · have haddr : ∀ ev ∈ w ++ [polled (StringValue o.QueryExecutionId) qid sp,
          .getResults { QueryExecutionId := some (StringValue o.QueryExecutionId) } fo fe],
        ev.addressedTo (StringValue o.QueryExecutionId) = true := by
      intro ev hev
      rcases List.mem_append.mp hev with h1 | h1
      · exact isPollFor_addressedTo (hw ev h1)
      · simp only [List.mem_cons, List.mem_singleton, List.not_mem_nil, or_false] at h1
        rcases h1 with h1 | h1
        · rw [h1]; exact isPollFor_addressedTo (polled_isPollFor _ qid sp)
        · rw [h1]; simp [Event.addressedTo]
    have h0 := submitCalls_of_addressedTo haddr
    refine ⟨_, htr, ?_, Or.inr ⟨some o, none, _, rfl, h0, haddr⟩, ?_⟩
    · have : submitCalls (submitted c p o :: (w ++
          [polled (StringValue o.QueryExecutionId) qid sp,
           .getResults { QueryExecutionId := some (StringValue o.QueryExecutionId) } fo fe])) =
          submitCalls (w ++ [polled (StringValue o.QueryExecutionId) qid sp,
           .getResults { QueryExecutionId := some (StringValue o.QueryExecutionId) } fo fe])
            + 1 := by
        simp [submitCalls, submitted]
      omega
    · intro r e hres
      exact ⟨o, _, rfl, (hok r e hres).1⟩

theorem QueryResult_single_execution_id_witness :
    ∃ t, (Exec 1 (testEngine MockAthenaClient 0 0) (some testQueryResultParam) []).trace =
        [] ++ t ∧ submitCalls t ≤ 1 ∧
      (t = [] ∨ ∃ out err rest,
        t = .startQuery (queryInput (testEngine MockAthenaClient 0 0) testQueryResultParam)
              out err :: rest ∧
        submitCalls rest = 0 ∧ ∀ ev ∈ rest, ev.addressedTo (idOf out) = true) ∧
      ∀ r e, (Exec 1 (testEngine MockAthenaClient 0 0) (some testQueryResultParam) []).res =
          .returned (some r, e) →
        ∃ o rest,
          t = .startQuery (queryInput (testEngine MockAthenaClient 0 0) testQueryResultParam)
                (some o) none :: rest ∧
          r.QueryID = StringValue o.QueryExecutionId :=
  QueryResult_single_execution_id 1 (testEngine MockAthenaClient 0 0) testQueryResultParam []
    rfl

/-- C15: in every run of `Exec` with "queryResult", for every client and
configuration: a fetch call is the last event of the run and the event right
before it is a status call that reported SUCCEEDED; when the wait after a
successful submit returns an error (Failed, Cancelled, timeout or a failed
status call), `Exec` returns that error and the run contains no fetch call; and
in every mode a response of `Exec` with columns or rows has `QueryStatus`
SUCCEEDED. -/
theorem fetch_only_after_succeeded (fuel : Nat) (c : AthenaEngine) (p : RequestParam)
    (h : List Event) (hopt : p.QueryOpt = QueryOptResult) :
    ∃ t, (Exec fuel c (some p) h).trace = h ++ t ∧
      (∀ pre post ev, t = pre ++ ev :: post → ev.isFetch = true →
        post = [] ∧ ∃ pre0 i qid sp, pre = pre0 ++ [polled i qid sp] ∧
          StringValue sp = QueryExecutionStateSucceeded) ∧
      (∀ h1 i e, ExecuteQuery c (some p) h = ⟨h1, .returned (i, none)⟩ →
        (waitQueryToFinish fuel c i h1).res = .returned (some e) →
          (Exec fuel c (some p) h).res = .returned (none, some e) ∧ fetchCalls t = 0) ∧
      (∀ param r e, (Exec fuel c param h).res = .returned (some r, e) →
        r.Columns ≠ none ∨ r.Rows ≠ none → r.QueryStatus = QueryExecutionStateSucceeded) := by
  have hB : ∀ t, (QueryResult fuel c (some p) h).trace = h ++ t →
      ∀ h1 i e, ExecuteQuery c (some p) h = ⟨h1, .returned (i, none)⟩ →
        (waitQueryToFinish fuel c i h1).res = .returned (some e) →
          (QueryResult fuel c (some p) h).res = .returned (none, some e) ∧ fetchCalls t = 0 := by
    intro t htr h1 i e hE hW
    obtain ⟨api, o, hca, hh1, hi⟩ := ExecuteQuery_returned hE
    obtain ⟨w, hw, hpoll, _⟩ := waitQueryToFinish_polls fuel i h1 hca
    rcases hWr : waitQueryToFinish fuel c i h1 with ⟨h2, res2⟩
    rw [hWr] at hW hw
    simp only at hW hw
    subst hW
    have hq : QueryResult fuel c (some p) h = ⟨h2, .returned (none, some e)⟩ := by
      simp only [QueryResult, hE, hWr]
    rw [hq] at htr ⊢
    simp only at htr
    refine ⟨rfl, ?_⟩
    have ht : t = submitted c p o :: w := by
      have heq : h ++ t = h ++ (submitted c p o :: w) := by
        rw [← htr, hw, hh1]
        simp
      exact List.append_cancel_left heq
    rw [ht]
    have := fetchCalls_of_isPollFor hpoll
    simp only [fetchCalls, submitted, List.countP_cons] at this ⊢
    simpa using this
  rw [Exec_of_result _ _ _ hopt]
  rcases QueryResult_shape fuel c p h with ⟨htr, hp⟩ | ⟨out, err, w, htr, hw, hno⟩ |
    ⟨o, w, qid, sp, fo, fe, htr, hw, hsp, hok⟩
  · refine ⟨[], by rw [htr]; simp, ?_, hB [] (by rw [htr]; simp),
      fun param r e => Exec_columns_only_succeeded fuel c param h r e⟩
    intro pre post ev ht
    simp at ht
  · refine ⟨_, htr, ?_, hB _ htr, fun param r e => Exec_columns_only_succeeded fuel c param h r e⟩
    intro pre post ev ht hev
    exfalso
    have hmem : ev ∈ Event.startQuery (queryInput c p) out err :: w := by rw [ht]; simp
    rcases List.mem_cons.mp hmem with h1 | h1
    · rw [h1] at hev
      simp [Event.isFetch] at hev
    · have := isPollFor_not_isFetch (hw ev h1)
      rw [hev] at this
      cases this
  · refine ⟨_, htr, ?_, hB _ htr, fun param r e => Exec_columns_only_succeeded fuel c param h r e⟩
    intro pre post ev ht hev
    have hbefore : ∀ e ∈ submitted c p o :: w ++ [polled (StringValue o.QueryExecutionId) qid sp],
        e.isFetch = false := by
      intro e he
      simp only [List.cons_append, List.mem_cons, List.mem_append, List.mem_singleton,
        List.not_mem_nil, or_false] at he
      rcases he with h1 | h1 | h1
      · rw [h1]; rfl
      · exact isPollFor_not_isFetch (hw e h1)
      · rw [h1]; rfl
    have hsplit : (submitted c p o :: w ++ [polled (StringValue o.QueryExecutionId) qid sp]) ++
        [Event.getResults { QueryExecutionId := some (StringValue o.QueryExecutionId) } fo fe] =
        pre ++ ev :: post := by
      rw [← ht]; simp
    obtain ⟨hpost, hpre, _⟩ := eq_last_of_not_before hbefore hsplit hev
    exact ⟨hpost, submitted c p o :: w, StringValue o.QueryExecutionId, qid, sp,
      by rw [hpre], hsp⟩

theorem fetch_only_after_succeeded_witness :
    ∃ t, (Exec 1 (testEngine MockAthenaClient 0 0) (some testQueryResultParam) []).trace =
        [] ++ t ∧
      (∀ pre post ev, t = pre ++ ev :: post → ev.isFetch = true →
        post = [] ∧ ∃ pre0 i qid sp, pre = pre0 ++ [polled i qid sp] ∧
          StringValue sp = QueryExecutionStateSucceeded) ∧
      (∀ h1 i e, ExecuteQuery (testEngine MockAthenaClient 0 0) (some testQueryResultParam) [] =
          ⟨h1, .returned (i, none)⟩ →
        (waitQueryToFinish 1 (testEngine MockAthenaClient 0 0) i h1).res = .returned (some e) →
          (Exec 1 (testEngine MockAthenaClient 0 0) (some testQueryResultParam) []).res =
            .returned (none, some e) ∧ fetchCalls t = 0) ∧
      (∀ param r e, (Exec 1 (testEngine MockAthenaClient 0 0) param []).res =
          .returned (some r, e) →
        r.Columns ≠ none ∨ r.Rows ≠ none → r.QueryStatus = QueryExecutionStateSucceeded) :=
  fetch_only_after_succeeded 1 (testEngine MockAthenaClient 0 0) testQueryResultParam [] rfl

/-! ## `strconv.Atoi` and `BuildAthenaConfig` -/

theorem digitsValueFrom_cons (n : Nat) (ch : Char) (ds : List Char) :
    digitsValueFrom n (ch :: ds) = digitsValueFrom (n * 10 + (ch.toNat - 48)) ds := rfl

theorem le_digitsValueFrom (ds : List Char) : ∀ n : Nat, n ≤ digitsValueFrom n ds := by
  induction ds with
  | nil => intro n; exact le_refl n
  | cons ch ds ih =>
    intro n
    rw [digitsValueFrom_cons]
    have := ih (n * 10 + (ch.toNat - 48))
    omega

/-- A list of `k` digits continues `n` to less than `(n + 1) * 10 ^ k`. -/
theorem digitsValueFrom_lt (ds : List Char) (hd : ds.all isDecimalDigit = true) :
    ∀ n : Nat, digitsValueFrom n ds < (n + 1) * 10 ^ ds.length := by
  induction ds with
  | nil => intro n; simp [digitsValueFrom]
  | cons ch ds ih =>
    intro n
    simp only [List.all_cons, Bool.and_eq_true] at hd
    have hch : ch.toNat - 48 ≤ 9 := by
      have := hd.1
      simp only [isDecimalDigit, decide_eq_true_eq] at this
      omega
    have h1 := ih hd.2 (n * 10 + (ch.toNat - 48))
    rw [digitsValueFrom_cons]
    have h2 : (n * 10 + (ch.toNat - 48) + 1) * 10 ^ ds.length ≤
        ((n + 1) * 10) * 10 ^ ds.length :=
      Nat.mul_le_mul_right _ (by omega)
    calc digitsValueFrom (n * 10 + (ch.toNat - 48)) ds
        < (n * 10 + (ch.toNat - 48) + 1) * 10 ^ ds.length := h1
      _ ≤ ((n + 1) * 10) * 10 ^ ds.length := h2
      _ = (n + 1) * 10 ^ (ch :: ds).length := by
          rw [List.length_cons, pow_succ]; ring

/-- The digit loop on digits only: the number they denote, or the range error
when it does not fit 64 bits. -/
theorem parseUintLoop_digits (ds : List Char) (hd : ds.all isDecimalDigit = true) :
    ∀ n : Nat, n ≤ maxUint64 →
      parseUintLoop ds n =
        if digitsValueFrom n ds ≤ maxUint64 then (digitsValueFrom n ds, none)
        else (maxUint64, some .ErrRange) := by
  induction ds with
  | nil =>
    intro n hn
    simp [parseUintLoop, digitsValueFrom, hn]
  | cons ch ds ih =>
    intro n hn
    simp only [List.all_cons, Bool.and_eq_true] at hd
    have hmono := le_digitsValueFrom ds (n * 10 + (ch.toNat - 48))
    rw [digitsValueFrom_cons]
    simp only [parseUintLoop, hd.1, if_true]
    by_cases h1 : n ≥ maxUint64 / 10 + 1
    · have : ¬ digitsValueFrom (n * 10 + (ch.toNat - 48)) ds ≤ maxUint64 := by
        simp only [maxUint64] at h1 ⊢
        omega
      rw [if_pos h1, if_neg this]
    · rw [if_neg h1]
      by_cases h2 : n * 10 + (ch.toNat - 48) > maxUint64
      · have : ¬ digitsValueFrom (n * 10 + (ch.toNat - 48)) ds ≤ maxUint64 := by omega
        rw [if_pos h2, if_neg this]
      · rw [if_neg h2]
        exact ih hd.2 _ (by omega)

/-- The digit loop on digits followed by a character that is not a digit, when
the digits fit 64 bits: a syntax error. -/
theorem parseUintLoop_bad (pre : List Char) (ch : Char) (rest : List Char)
    (hpre : pre.all isDecimalDigit = true) (hch : isDecimalDigit ch = false) :
    ∀ n : Nat, digitsValueFrom n pre ≤ maxUint64 →
      parseUintLoop (pre ++ ch :: rest) n = (0, some .ErrSyntax) := by
  induction pre with
  | nil =>
    intro n _
    simp [parseUintLoop, hch]
  | cons d pre ih =>
    intro n hn
    simp only [List.all_cons, Bool.and_eq_true] at hpre
    rw [digitsValueFrom_cons] at hn
    have hmono := le_digitsValueFrom pre (n * 10 + (d.toNat - 48))
    have h1 : ¬ n ≥ maxUint64 / 10 + 1 := by
      simp only [maxUint64] at hn hmono ⊢
      omega
    have h2 : ¬ n * 10 + (d.toNat - 48) > maxUint64 := by omega
    simp only [List.cons_append, parseUintLoop, hpre.1, if_true, if_neg h1, if_neg h2]
    exact ih hpre.2 _ hn

/-- A list that is not all digits splits at its first character that is not one. -/
theorem split_at_first_bad (ds : List Char) (h : ds.all isDecimalDigit = false) :
    ∃ pre ch rest, ds = pre ++ ch :: rest ∧ pre.all isDecimalDigit = true ∧
      isDecimalDigit ch = false := by
  induction ds with
  | nil => simp at h
  | cons d ds ih =>
    by_cases hd : isDecimalDigit d = true
    · have hrest : ds.all isDecimalDigit = false := by
        simp only [List.all_cons, hd, Bool.true_and] at h
        exact h
      obtain ⟨pre, ch, rest, hds, hpre, hch⟩ := ih hrest
      exact ⟨d :: pre, ch, rest, by rw [hds]; rfl, by simp [List.all_cons, hd, hpre], hch⟩
    · exact ⟨[], d, ds, rfl, rfl, by simpa using hd⟩

theorem ParseUint_valid (ds : List Char) (h : validDigits ds = true) :
    ParseUint ds =
      if digitsValueFrom 0 ds ≤ maxUint64 then (digitsValueFrom 0 ds, none)
      else (maxUint64, some .ErrRange) := by
  cases ds with
  | nil => simp [validDigits] at h
  | cons ch rest =>
    simp only [validDigits, List.isEmpty_cons, Bool.not_false, Bool.true_and] at h
    simp only [ParseUint]
    exact parseUintLoop_digits _ h 0 (by simp [maxUint64])

theorem ParseUint_invalid (ds : List Char) (h : validDigits ds = false) (hlen : ds.length ≤ 20) :
    ParseUint ds = (0, some .ErrSyntax) := by
  cases ds with
  | nil => rfl
  | cons d rest =>
    simp only [validDigits, List.isEmpty_cons, Bool.not_false, Bool.true_and] at h
    obtain ⟨pre, ch, tl, hds, hpre, hch⟩ := split_at_first_bad _ h
    simp only [ParseUint]
    rw [hds]
    apply parseUintLoop_bad pre ch tl hpre hch
    have hl : pre.length ≤ 19 := by
      have := congrArg List.length hds
      simp only [List.length_cons, List.length_append] at this hlen
      omega
    have h1 := digitsValueFrom_lt pre hpre 0
    have h2 : 10 ^ pre.length ≤ 10 ^ 19 := Nat.pow_le_pow_right (by norm_num) hl
    simp only [maxUint64]
    omega

/-- What `ParseInt` makes of the result of `ParseUint` on digits. -/
theorem ParseInt_of_body (s : String) (ch : Char) (rest body : List Char) (neg : Bool)
    (hs : s.data = ch :: rest) (hneg : neg = decide (ch = '-'))
    (hbody : body = if ch = '+' ∨ ch = '-' then rest else ch :: rest)
    (hv : validDigits body = true) :
    (ParseInt s).1 =
      if neg = false then
        (if digitsValueFrom 0 body ≥ 2 ^ 63 then (2 ^ 63 - 1 : Int)
          else ((digitsValueFrom 0 body : Nat) : Int))
      else
        (if digitsValueFrom 0 body > 2 ^ 63 then (-2 ^ 63 : Int)
          else -((digitsValueFrom 0 body : Nat) : Int)) := by
  have hp := ParseUint_valid body hv
  rw [hbody] at hp
  simp only [ParseInt, hs, hp]
  rw [← hbody, ← hneg]
  by_cases hfit : digitsValueFrom 0 body ≤ maxUint64
  · rw [if_pos hfit]
    cases neg with
    | false =>
      simp only [true_and, Bool.false_eq_true, false_and, if_false, if_true]
      split_ifs <;> rfl
    | true =>
      simp only [Bool.true_eq_false, false_and, if_false, true_and, if_true]
      split_ifs <;> rfl
  · rw [if_neg hfit]
    have hbig : digitsValueFrom 0 body > 2 ^ 63 := by
      simp only [maxUint64] at hfit
      omega
    have hbig2 : digitsValueFrom 0 body ≥ 2 ^ 63 := le_of_lt hbig
    cases neg with
    | false =>
      simp only [true_and, Bool.false_eq_true, false_and, if_false, if_true, if_pos hbig2]
      have : maxUint64 ≥ 2 ^ 63 := by simp [maxUint64]
      rw [if_pos this]
    | true =>
      simp only [Bool.true_eq_false, false_and, if_false, true_and, if_true, if_pos hbig]
      have : maxUint64 > 2 ^ 63 := by simp [maxUint64]
      rw [if_pos this]

theorem ParseInt_of_bad_body (s : String) (ch : Char) (rest : List Char)
    (hs : s.data = ch :: rest)
    (hv : validDigits (if ch = '+' ∨ ch = '-' then rest else ch :: rest) = false)
    (hlen : (if ch = '+' ∨ ch = '-' then rest else ch :: rest).length ≤ 20) :
    (ParseInt s).1 = 0 := by
  have hp := ParseUint_invalid _ hv hlen
  simp only [ParseInt, hs, hp]

/-- On a string that denotes the decimal integer `v`, `Atoi` gives `v` when it
is in the range of `int`, and else the nearest `int`. -/
theorem Atoi_of_decimalValue (s : String) (v : Int) (h : decimalValue s = some v) :
    (Atoi s).1 =
      if v ≥ 2 ^ 63 then 2 ^ 63 - 1 else if v < -2 ^ 63 then -2 ^ 63 else v := by
  rcases hd : s.data with _ | ⟨ch, rest⟩
  · simp [decimalValue, hd] at h
  · simp only [decimalValue, hd] at h
    show (ParseInt s).1 = _
    by_cases hm : ch = '-'
    · rw [if_pos hm] at h
      by_cases hv : validDigits rest = true
      · rw [if_pos hv] at h
        have hv2 : v = -((digitsValueFrom 0 rest : Nat) : Int) := (Option.some.inj h).symm
        rw [ParseInt_of_body s ch rest rest true hd (by simp [hm]) (by simp [hm]) hv, hv2]
        simp only [Bool.true_eq_false, if_false]
        split_ifs <;> omega
      · rw [if_neg hv] at h
        cases h
    · rw [if_neg hm] at h
      by_cases hp : ch = '+'
      · rw [if_pos hp] at h
        by_cases hv : validDigits rest = true
        · rw [if_pos hv] at h
          have hv2 : v = ((digitsValueFrom 0 rest : Nat) : Int) := (Option.some.inj h).symm
          rw [ParseInt_of_body s ch rest rest false hd (by simp [hm]) (by simp [hp]) hv, hv2]
          simp only [if_true]
          split_ifs <;> omega
        · rw [if_neg hv] at h
          cases h
      · rw [if_neg hp] at h
        by_cases hv : validDigits (ch :: rest) = true
        · rw [if_pos hv] at h
          have hv2 : v = ((digitsValueFrom 0 (ch :: rest) : Nat) : Int) :=
            (Option.some.inj h).symm
          rw [ParseInt_of_body s ch rest (ch :: rest) false hd (by simp [hm])
            (by simp [hm, hp]) hv, hv2]
          simp only [if_true]
          split_ifs <;> omega
        · rw [if_neg hv] at h
          cases h

/-- On a string of at most 20 characters that denotes no decimal integer, `Atoi`
gives 0. -/
theorem Atoi_of_not_decimal (s : String) (h : decimalValue s = none) (hlen : s.length ≤ 20) :
    (Atoi s).1 = 0 := by
  have hl : s.data.length ≤ 20 := hlen
  rcases hd : s.data with _ | ⟨ch, rest⟩
  · simp [Atoi, ParseInt, hd]
  · rw [hd] at hl
    simp only [List.length_cons] at hl
    simp only [decimalValue, hd] at h
    show (ParseInt s).1 = 0
    by_cases hm : ch = '-'
    · rw [if_pos hm] at h
      apply ParseInt_of_bad_body s ch rest hd
      · simp only [hm, or_true, if_true]
        by_contra hv
        simp only [Bool.not_eq_false] at hv
        rw [if_pos hv] at h
        cases h
      · simp only [hm, or_true, if_true]
        omega
    · rw [if_neg hm] at h
      by_cases hp : ch = '+'
      · rw [if_pos hp] at h
        apply ParseInt_of_bad_body s ch rest hd
        · simp only [hp, true_or, if_true]
          by_contra hv
          simp only [Bool.not_eq_false] at hv
          rw [if_pos hv] at h
          cases h
        · simp only [hp, true_or, if_true]
          omega
      · rw [if_neg hp] at h
        apply ParseInt_of_bad_body s ch rest hd
        · simp only [hp, hm, or_self, if_false]
          by_contra hv
          simp only [Bool.not_eq_false] at hv
          rw [if_pos hv] at h
          cases h
        · simp only [hp, hm, or_self, if_false, List.length_cons]
          omega

theorem decimalValue_empty : decimalValue "" = none := rfl

theorem takeWhile_digits_split (pre : List Char) (ch : Char) (tl : List Char)
    (hpre : pre.all isDecimalDigit = true) (hch : isDecimalDigit ch = false) :
    (pre ++ ch :: tl).takeWhile isDecimalDigit = pre := by
  induction pre with
  | nil => simp [List.takeWhile, hch]
  | cons d pre ih =>
    simp only [List.all_cons, Bool.and_eq_true] at hpre
    have hstep : (d :: pre ++ ch :: tl).takeWhile isDecimalDigit =
        d :: (pre ++ ch :: tl).takeWhile isDecimalDigit := by
      simp [List.takeWhile, hpre.1]
    rw [hstep, ih hpre.2]

theorem all_takeWhile_digits (ds : List Char) :
    (ds.takeWhile isDecimalDigit).all isDecimalDigit = true := by
  induction ds with
  | nil => rfl
  | cons d ds ih =>
    by_cases hd : isDecimalDigit d = true
    · simp [List.takeWhile, hd, ih]
    · have hd2 : isDecimalDigit d = false := by simpa using hd
      simp [List.takeWhile, hd2]

/-- The digit loop on digits that overflow 64 bits, whatever follows them: the
range error, at once. -/
theorem parseUintLoop_overflow (pre tl : List Char) (hpre : pre.all isDecimalDigit = true) :
    ∀ n : Nat, n ≤ maxUint64 → digitsValueFrom n pre > maxUint64 →
      parseUintLoop (pre ++ tl) n = (maxUint64, some .ErrRange) := by
  induction pre with
  | nil =>
    intro n hn hov
    simp only [digitsValueFrom, List.foldl_nil] at hov
    omega
  | cons d pre ih =>
    intro n hn hov
    simp only [List.all_cons, Bool.and_eq_true] at hpre
    rw [digitsValueFrom_cons] at hov
    simp only [List.cons_append, parseUintLoop, hpre.1, if_true]
    by_cases h1 : n ≥ maxUint64 / 10 + 1
    · rw [if_pos h1]
    · rw [if_neg h1]
      by_cases h2 : n * 10 + (d.toNat - 48) > maxUint64
      · rw [if_pos h2]
      · rw [if_neg h2]
        exact ih hpre.2 _ (by omega) hov

/-- `ParseUint` on a list that is not a nonempty list of digits: a syntax error,
unless the digits that lead it overflow 64 bits. -/
theorem ParseUint_not_valid (ds : List Char) (h : validDigits ds = false) :
    ParseUint ds =
      if digitsValueFrom 0 (ds.takeWhile isDecimalDigit) ≤ maxUint64 then (0, some .ErrSyntax)
      else (maxUint64, some .ErrRange) := by
  cases ds with
  | nil => simp [ParseUint, digitsValueFrom]
  | cons d rest =>
    simp only [validDigits, List.isEmpty_cons, Bool.not_false, Bool.true_and] at h
    obtain ⟨pre, ch, tl, hds, hpre, hch⟩ := split_at_first_bad _ h
    simp only [ParseUint]
    rw [hds, takeWhile_digits_split pre ch tl hpre hch]
    by_cases hfit : digitsValueFrom 0 pre ≤ maxUint64
    · rw [if_pos hfit]
      exact parseUintLoop_bad pre ch tl hpre hch 0 hfit
    · rw [if_neg hfit]
      exact parseUintLoop_overflow pre (ch :: tl) hpre 0 (by simp [maxUint64]) (by omega)

theorem ParseInt_not_valid (s : String) (ch : Char) (rest : List Char)
    (hs : s.data = ch :: rest)
    (hv : validDigits (if ch = '+' ∨ ch = '-' then rest else ch :: rest) = false) :
    (ParseInt s).1 =
      if digitsValueFrom 0 (leadingDigits s) ≤ maxUint64 then 0
      else if startsWithMinus s then -2 ^ 63 else 2 ^ 63 - 1 := by
  have hp := ParseUint_not_valid _ hv
  have hl : leadingDigits s =
      (if ch = '+' ∨ ch = '-' then rest else ch :: rest).takeWhile isDecimalDigit := by
    simp only [leadingDigits, signStripped, hs]
  have hm : startsWithMinus s = decide (ch = '-') := by
    simp only [startsWithMinus, hs]
  rw [hl, hm]
  simp only [ParseInt, hs, hp]
  by_cases hfit : digitsValueFrom 0
      ((if ch = '+' ∨ ch = '-' then rest else ch :: rest).takeWhile isDecimalDigit) ≤ maxUint64
  · simp only [if_pos hfit]
  · simp only [if_neg hfit]
    have h1 : maxUint64 ≥ 2 ^ 63 := by simp [maxUint64]
    have h2 : maxUint64 > 2 ^ 63 := by simp [maxUint64]
    by_cases hneg : ch = '-'
    · simp only [hneg, decide_True, Bool.true_eq_false, false_and, if_false, true_and,
        if_true, if_pos h2]
    · simp only [hneg, decide_False, true_and, Bool.false_eq_true, if_false, if_pos h1]

/-- A string that denotes no decimal integer is, after its sign, not a nonempty
list of digits. -/
theorem not_valid_of_decimalValue_none (s : String) (ch : Char) (rest : List Char)
    (hs : s.data = ch :: rest) (h : decimalValue s = none) :
    validDigits (if ch = '+' ∨ ch = '-' then rest else ch :: rest) = false := by
  simp only [decimalValue, hs] at h
  by_cases hm : ch = '-'
  · rw [if_pos hm] at h
    simp only [hm, or_true, if_true]
    by_contra hv
    simp only [Bool.not_eq_false] at hv
    rw [if_pos hv] at h
    cases h
  · rw [if_neg hm] at h
    by_cases hp : ch = '+'
    · rw [if_pos hp] at h
      simp only [hp, true_or, if_true]
      by_contra hv
      simp only [Bool.not_eq_false] at hv
      rw [if_pos hv] at h
      cases h
    · rw [if_neg hp] at h
      simp only [hp, hm, or_self, if_false]
      by_contra hv
      simp only [Bool.not_eq_false] at hv
      rw [if_pos hv] at h
      cases h

/-- On a string that denotes no decimal integer, `Atoi` gives 0, unless the
digits that lead the string overflow 64 bits: then the largest `int`, or the
smallest after a minus sign. -/
theorem Atoi_of_decimalValue_none (s : String) (h : decimalValue s = none) :
    (Atoi s).1 =
      if digitsValueFrom 0 (leadingDigits s) ≤ maxUint64 then 0
      else if startsWithMinus s then -2 ^ 63 else 2 ^ 63 - 1 := by
  rcases hd : s.data with _ | ⟨ch, rest⟩
  · simp [Atoi, ParseInt, leadingDigits, signStripped, hd, digitsValueFrom]
  · exact ParseInt_not_valid s ch rest hd (not_valid_of_decimalValue_none s ch rest hd h)

theorem ParsedAs_Atoi (s : String) : ParsedAs s (Atoi s).1 := by
  refine ⟨?_, ?_, ?_, ?_, ?_⟩
  · intro v hv hlo hhi
    rw [Atoi_of_decimalValue s v hv]
    split_ifs <;> omega
  · intro v hv hge
    rw [Atoi_of_decimalValue s v hv, if_pos hge]
  · intro v hv hlt
    rw [Atoi_of_decimalValue s v hv]
    split_ifs <;> omega
  · intro hn hfit
    rw [Atoi_of_decimalValue_none s hn, if_pos hfit]
  · intro hn hov
    rw [Atoi_of_decimalValue_none s hn, if_neg (by omega)]

/-- The five cases of `ParsedAs` leave one value only. -/
theorem ParsedAs_unique (s : String) (n m : Int) (hn : ParsedAs s n) (hm : ParsedAs s m) :
    n = m := by
  obtain ⟨n1, n2, n3, n4, n5⟩ := hn
  obtain ⟨m1, m2, m3, m4, m5⟩ := hm
  cases hd : decimalValue s with
  | some v =>
    by_cases hge : v ≥ 2 ^ 63
    · rw [n2 v hd hge, m2 v hd hge]
    · by_cases hlt : v < -2 ^ 63
      · rw [n3 v hd hlt, m3 v hd hlt]
      · rw [n1 v hd (by omega) (by omega), m1 v hd (by omega) (by omega)]
  | none =>
    by_cases hfit : digitsValueFrom 0 (leadingDigits s) ≤ maxUint64
    · rw [n4 hd hfit, m4 hd hfit]
    · rw [n5 hd (by omega), m5 hd (by omega)]

/-- Fewer than 20 leading digits never overflow 64 bits. -/
theorem leadingDigits_fit (s : String) (hlen : (leadingDigits s).length ≤ 19) :
    digitsValueFrom 0 (leadingDigits s) ≤ maxUint64 := by
  have h1 := digitsValueFrom_lt (leadingDigits s) (all_takeWhile_digits _) 0
  have h2 : 10 ^ (leadingDigits s).length ≤ 10 ^ 19 := Nat.pow_le_pow_right (by norm_num) hlen
  simp only [maxUint64]
  omega

theorem index_of_absent (conf : StringMap) (key : String) (h : conf.lookup key = none) :
    conf.index key = "" := by
  simp [StringMap.index, h]

/-- Claim C14 fails on the code: for the one-entry map with the decimal string
of `2 ^ 63` at `maxInterval`, the `MaxInterval` of the config is `2 ^ 63 - 1`:
neither the integer the string denotes nor 0.  And for a value of twenty nines
followed by a letter, which denotes no integer, `MaxTimeout` is `2 ^ 63 - 1`
too, not 0. -/
theorem BuildAthenaConfig_out_of_range :
    decimalValue "9223372036854775808" = some 9223372036854775808 ∧
    (BuildAthenaConfig [("maxInterval", "9223372036854775808")]).map
        (fun cfg => cfg.MaxInterval) = some 9223372036854775807 ∧
    (BuildAthenaConfig [("maxInterval", "9223372036854775808")]).map
        (fun cfg => cfg.MaxInterval) ≠ some 9223372036854775808 ∧
    (BuildAthenaConfig [("maxInterval", "9223372036854775808")]).map
        (fun cfg => cfg.MaxInterval) ≠ some 0 ∧
    decimalValue "99999999999999999999x" = none ∧
    (BuildAthenaConfig [("maxTimeout", "99999999999999999999x")]).map
        (fun cfg => cfg.MaxTimeout) = some 9223372036854775807 := by
  decide

/-- C14, amended: for a nil or empty map `BuildAthenaConfig` returns nil; for
every map with at least one entry it returns a config whose seven string fields
are the map's values at `region`, `role`, `output_location`, `poll_frequency`,
`access_id`, `secret_key` and `session_token` (the empty string when the key is
absent), and whose `MaxInterval` and `MaxTimeout` are what `strconv.Atoi`
returns, its error dropped, for the values at `maxInterval` and `maxTimeout`.
`ParsedAs` says what that is, and leaves one value only: the decimal integer
denoted when it is in the range of `int`; the nearest `int` when it is out of
range; and, for a value that denotes no integer, 0 (always so with fewer than 20
leading digits, and so when the key is absent), unless its leading digits
overflow 64 bits, where it is the largest `int`, or the smallest after a minus
sign. -/
theorem BuildAthenaConfig_fields (conf : StringMap) :
    (conf = [] → BuildAthenaConfig conf = none) ∧
    (conf ≠ [] → ∃ cfg, BuildAthenaConfig conf = some cfg ∧
      cfg.Region = conf.index "region" ∧ cfg.Role = conf.index "role" ∧
      cfg.OutputLocation = conf.index "output_location" ∧
      cfg.PollFrequency = conf.index "poll_frequency" ∧
      cfg.AccessID = conf.index "access_id" ∧ cfg.SecretKey = conf.index "secret_key" ∧
      cfg.SessionToken = conf.index "session_token" ∧
      cfg.MaxInterval = (Atoi (conf.index "maxInterval")).1 ∧
      cfg.MaxTimeout = (Atoi (conf.index "maxTimeout")).1 ∧
      ParsedAs (conf.index "maxInterval") cfg.MaxInterval ∧
      ParsedAs (conf.index "maxTimeout") cfg.MaxTimeout ∧
      (conf.lookup "maxInterval" = none → cfg.MaxInterval = 0) ∧
      (conf.lookup "maxTimeout" = none → cfg.MaxTimeout = 0)) ∧
    (∀ key, conf.lookup key = none → conf.index key = "") ∧
    (∀ (s : String) (n m : Int), ParsedAs s n → ParsedAs s m → n = m) ∧
    (∀ (s : String) (n : Int), ParsedAs s n → decimalValue s = none →
      (leadingDigits s).length ≤ 19 → n = 0) := by
  refine ⟨?_, ?_, index_of_absent conf, ParsedAs_unique, ?_⟩
  · intro h
    subst h
    rfl
  · intro h
    have hlen : ¬ conf.length = 0 := by
      intro h0
      exact h (List.length_eq_zero.mp h0)
    have hb : BuildAthenaConfig conf = some
        { Region := conf.index "region", OutputLocation := conf.index "output_location",
          PollFrequency := conf.index "poll_frequency", AccessID := conf.index "access_id",
          SecretKey := conf.index "secret_key", SessionToken := conf.index "session_token",
          Role := conf.index "role", MaxInterval := (Atoi (conf.index "maxInterval")).1,
          MaxTimeout := (Atoi (conf.index "maxTimeout")).1 } := by
      simp only [BuildAthenaConfig, if_neg hlen]
    refine ⟨_, hb, rfl, rfl, rfl, rfl, rfl, rfl, rfl, rfl, rfl,
      ParsedAs_Atoi _, ParsedAs_Atoi _, ?_, ?_⟩
    · intro habs
      show (Atoi (conf.index "maxInterval")).1 = 0
      rw [index_of_absent conf _ habs]
      rfl
    · intro habs
      show (Atoi (conf.index "maxTimeout")).1 = 0
      rw [index_of_absent conf _ habs]
      rfl
  · intro s n hp hnone hlen
    exact hp.2.2.2.1 hnone (leadingDigits_fit s hlen)

theorem BuildAthenaConfig_fields_witness :
    ∃ cfg, BuildAthenaConfig testConf = some cfg ∧
      cfg.Region = testConf.index "region" ∧ cfg.Role = testConf.index "role" ∧
      cfg.OutputLocation = testConf.index "output_location" ∧
      cfg.PollFrequency = testConf.index "poll_frequency" ∧
      cfg.AccessID = testConf.index "access_id" ∧ cfg.SecretKey = testConf.index "secret_key" ∧
      cfg.SessionToken = testConf.index "session_token" ∧
      cfg.MaxInterval = (Atoi (testConf.index "maxInterval")).1 ∧
      cfg.MaxTimeout = (Atoi (testConf.index "maxTimeout")).1 ∧
      ParsedAs (testConf.index "maxInterval") cfg.MaxInterval ∧
      ParsedAs (testConf.index "maxTimeout") cfg.MaxTimeout ∧
      (testConf.lookup "maxInterval" = none → cfg.MaxInterval = 0) ∧
      (testConf.lookup "maxTimeout" = none → cfg.MaxTimeout = 0) :=
  (BuildAthenaConfig_fields testConf).2.1 (by decide)

/-! ## Where the errors of the poll loop come from -/

end Athena
